import Mathlib

/-!
# Verification of the layout-editing engine (TipTap/ProseMirror editor plugin)

Shallow embedding of the document model and layout-editing commands of the
repository (src/src/editor/BlockStyle.ts, the Columns extension and email
export in src/src/utils/emailExport.ts, the DivBlock node and drag-drop
manager in src/unnamed).  Each section names the source function it embeds.

Conventions:
* JS numbers used for widths/radii/padding are embedded as `Int` (the code
  only ever stores integers in these attributes); percentages computed by
  the resize engine are embedded as `Rat` since they are genuine fractions.
* JS `undefined`/`null` attribute values are `Option.none`.
* ProseMirror's flat integer positions are embedded as resolved tree paths
  (a `List Nat` of child indices); `$from.node(d)` is the node at the
  length-`d` prefix of the cursor path.
-/

namespace EditorPlugin

/-! ## Attributes

Attribute record shared by all block nodes.  It is the union of the
attribute sets declared in `Column.addAttributes`, `ColumnLayout.addAttributes`
(src/src/utils/emailExport.ts lines 614-637 and 698-723) and
`DivBlock.addAttributes` (src/unnamed/part_000 lines 46-64): the fourteen
block-style attributes (all defaulting to null), the column `width`
(a percentage string or null) and the layout `columns` count (default 2;
ProseMirror materialises the default on every node). -/

structure Attrs where
  width : Option String := none
  columns : Int := 2
  backgroundColor : Option String := none
  borderTopWidth : Option Int := none
  borderRightWidth : Option Int := none
  borderBottomWidth : Option Int := none
  borderLeftWidth : Option Int := none
  borderColor : Option String := none
  borderTopLeftRadius : Option Int := none
  borderTopRightRadius : Option Int := none
  borderBottomRightRadius : Option Int := none
  borderBottomLeftRadius : Option Int := none
  paddingTop : Option Int := none
  paddingRight : Option Int := none
  paddingBottom : Option Int := none
  paddingLeft : Option Int := none
  deriving Repr, DecidableEq

/-- The default attribute record (every declared attribute at its default). -/
def Attrs.default : Attrs := {}

/-- `BlockStyleAttributes` as passed to `setParentContainerStyle`
(src/src/editor/BlockStyle.ts lines 23-38): a partial bag of the fourteen
style attributes.  A field that is `none` models a key absent from the JS
object literal, so that the object spread of `node.attrs` with `attributes`
leaves the node's value in place.  There is deliberately no `width` or
`columns` field: the TS interface has none. -/
structure StylePatch where
  backgroundColor : Option String := none
  borderTopWidth : Option Int := none
  borderRightWidth : Option Int := none
  borderBottomWidth : Option Int := none
  borderLeftWidth : Option Int := none
  borderColor : Option String := none
  borderTopLeftRadius : Option Int := none
  borderTopRightRadius : Option Int := none
  borderBottomRightRadius : Option Int := none
  borderBottomLeftRadius : Option Int := none
  paddingTop : Option Int := none
  paddingRight : Option Int := none
  paddingBottom : Option Int := none
  paddingLeft : Option Int := none
  deriving Repr, DecidableEq

/-- The JS object spread of existing `node.attrs` with the incoming patch in
`setParentContainerStyle` (BlockStyle.ts lines 359-362): keys present in the
patch override, all other keys (including `width` and `columns`) are kept. -/
def mergeAttrs (a : Attrs) (p : StylePatch) : Attrs :=
  { width := a.width
    columns := a.columns
    backgroundColor := match p.backgroundColor with | some v => some v | none => a.backgroundColor
    borderTopWidth := match p.borderTopWidth with | some v => some v | none => a.borderTopWidth
    borderRightWidth := match p.borderRightWidth with | some v => some v | none => a.borderRightWidth
    borderBottomWidth := match p.borderBottomWidth with | some v => some v | none => a.borderBottomWidth
    borderLeftWidth := match p.borderLeftWidth with | some v => some v | none => a.borderLeftWidth
    borderColor := match p.borderColor with | some v => some v | none => a.borderColor
    borderTopLeftRadius := match p.borderTopLeftRadius with | some v => some v | none => a.borderTopLeftRadius
    borderTopRightRadius := match p.borderTopRightRadius with | some v => some v | none => a.borderTopRightRadius
    borderBottomRightRadius := match p.borderBottomRightRadius with | some v => some v | none => a.borderBottomRightRadius
    borderBottomLeftRadius := match p.borderBottomLeftRadius with | some v => some v | none => a.borderBottomLeftRadius
    paddingTop := match p.paddingTop with | some v => some v | none => a.paddingTop
    paddingRight := match p.paddingRight with | some v => some v | none => a.paddingRight
    paddingBottom := match p.paddingBottom with | some v => some v | none => a.paddingBottom
    paddingLeft := match p.paddingLeft with | some v => some v | none => a.paddingLeft }

end EditorPlugin

namespace EditorPlugin

/-! ## Style resolver

`buildBorderStyle` (src/src/editor/BlockStyle.ts lines 85-128) builds the
`parts` array of CSS declarations and joins it with "; ".  JS truthiness of
the values involved: a string is truthy iff non-empty, a number is truthy
iff non-zero. -/

/-- JS truthiness of an optional string attribute value. -/
def truthyStr : Option String → Prop
  | some s => s ≠ ""
  | none => False

instance : DecidablePred truthyStr := fun o => by
  cases o <;> simp [truthyStr] <;> infer_instance

/-- A CSS declaration value as the resolver writes it: either a plain string
(colors, the keyword `solid`) or four px lengths. -/
inductive CssVal where
  | raw (s : String)
  | quad (x1 x2 x3 x4 : Int)
  deriving Repr, DecidableEq

/-- Serialize a CSS value exactly as the template literals in
`buildBorderStyle` do. -/
def CssVal.render : CssVal → String
  | .raw s => s
  | .quad x1 x2 x3 x4 =>
      toString x1 ++ "px " ++ toString x2 ++ "px " ++ toString x3 ++ "px " ++ toString x4 ++ "px"

/-- One `property: value` declaration pushed onto the `parts` array. -/
structure CssDecl where
  prop : String
  val : CssVal
  deriving Repr, DecidableEq

def CssDecl.render (d : CssDecl) : String := d.prop ++ ": " ++ d.val.render

/-- The sequence of declarations `buildBorderStyle` pushes onto `parts`,
in source order. -/
def buildBorderStyleDecls (a : Attrs) : List CssDecl :=
  let parts : List CssDecl := []
  let parts := if truthyStr a.backgroundColor ∧ a.backgroundColor ≠ some "transparent"
    then parts ++ [⟨"background-color", .raw (a.backgroundColor.getD "")⟩] else parts
  let bt := a.borderTopWidth.getD 0
  let br := a.borderRightWidth.getD 0
  let bb := a.borderBottomWidth.getD 0
  let bl := a.borderLeftWidth.getD 0
  let parts := if bt ≠ 0 ∨ br ≠ 0 ∨ bb ≠ 0 ∨ bl ≠ 0
    then
      let parts := parts ++ [⟨"border-style", .raw "solid"⟩]
      let parts := parts ++ [⟨"border-width", .quad bt br bb bl⟩]
      if truthyStr a.borderColor
        then parts ++ [⟨"border-color", .raw (a.borderColor.getD "")⟩] else parts
    else parts
  let rtl := a.borderTopLeftRadius.getD 0
  let rtr := a.borderTopRightRadius.getD 0
  let rbr := a.borderBottomRightRadius.getD 0
  let rbl := a.borderBottomLeftRadius.getD 0
  let parts := if rtl ≠ 0 ∨ rtr ≠ 0 ∨ rbr ≠ 0 ∨ rbl ≠ 0
    then parts ++ [⟨"border-radius", .quad rtl rtr rbr rbl⟩]
    else parts
  let pt := a.paddingTop.getD 0
  let pr := a.paddingRight.getD 0
  let pb := a.paddingBottom.getD 0
  let pl := a.paddingLeft.getD 0
  let parts := if pt ≠ 0 ∨ pr ≠ 0 ∨ pb ≠ 0 ∨ pl ≠ 0
    then parts ++ [⟨"padding", .quad pt pr pb pl⟩]
    else parts
  parts

/-- The `parts` array built by `buildBorderStyle` before the final join. -/
def buildBorderStyleParts (a : Attrs) : List String :=
  (buildBorderStyleDecls a).map CssDecl.render

/-- The `parts` array as built literally by the source, for reference. -/
def buildBorderStylePartsLit (a : Attrs) : List String :=
  let parts : List String := []
  let parts := if truthyStr a.backgroundColor ∧ a.backgroundColor ≠ some "transparent"
    then parts ++ ["background-color: " ++ a.backgroundColor.getD ""] else parts
  let bt := a.borderTopWidth.getD 0
  let br := a.borderRightWidth.getD 0
  let bb := a.borderBottomWidth.getD 0
  let bl := a.borderLeftWidth.getD 0
  let parts := if bt ≠ 0 ∨ br ≠ 0 ∨ bb ≠ 0 ∨ bl ≠ 0
    then
      let parts := parts ++ ["border-style: solid"]
      let parts := parts ++ ["border-width: " ++ toString bt ++ "px " ++ toString br
        ++ "px " ++ toString bb ++ "px " ++ toString bl ++ "px"]
      if truthyStr a.borderColor
        then parts ++ ["border-color: " ++ a.borderColor.getD ""] else parts
    else parts
  let rtl := a.borderTopLeftRadius.getD 0
  let rtr := a.borderTopRightRadius.getD 0
  let rbr := a.borderBottomRightRadius.getD 0
  let rbl := a.borderBottomLeftRadius.getD 0
  let parts := if rtl ≠ 0 ∨ rtr ≠ 0 ∨ rbr ≠ 0 ∨ rbl ≠ 0
    then parts ++ ["border-radius: " ++ toString rtl ++ "px " ++ toString rtr
      ++ "px " ++ toString rbr ++ "px " ++ toString rbl ++ "px"]
    else parts
  let pt := a.paddingTop.getD 0
  let pr := a.paddingRight.getD 0
  let pb := a.paddingBottom.getD 0
  let pl := a.paddingLeft.getD 0
  let parts := if pt ≠ 0 ∨ pr ≠ 0 ∨ pb ≠ 0 ∨ pl ≠ 0
    then parts ++ ["padding: " ++ toString pt ++ "px " ++ toString pr
      ++ "px " ++ toString pb ++ "px " ++ toString pl ++ "px"]
    else parts
  parts

/-- `buildBorderStyle(attrs)`: `parts.join('; ')`. -/
def buildBorderStyle (a : Attrs) : String :=
  String.intercalate "; " (buildBorderStyleParts a)

/-! ## Column resize clamp

The width arithmetic of the `ColumnResize` plugin's `mousemove` handler
(src/src/utils/emailExport.ts lines 1006-1025): candidate widths from the
captured start widths plus the pointer delta (already converted to percent of
the layout width), then two sequential clamps against the fixed 15% minimum. -/

/-- The pair (newLeftWidth, newRightWidth) computed by the mousemove handler
from the drag-start widths and the pointer delta in percent. -/
def resizeMove (startLeft startRight delta : ℚ) : ℚ × ℚ :=
  let newLeft := startLeft + delta
  let newRight := startRight - delta
  let minWidth : ℚ := 15
  let p := if newLeft < minWidth
    then (minWidth, startLeft + startRight - minWidth)
    else (newLeft, newRight)
  if p.2 < minWidth
    then (startLeft + startRight - minWidth, minWidth)
    else p

/-! ## Column commands at the layout level (addColumn / removeColumn)

The effect of the `addColumn` and `removeColumn` commands
(src/src/utils/emailExport.ts lines 795-828 and 830-865) on the column
layout they target.  `addColumn` inserts a fresh column (one empty
paragraph, default attributes) at the end of the layout and sets the
layout's `columns` attribute to its previous value plus one; `removeColumn`
with more than one child deletes the column holding the selection and sets
`columns` to its previous value minus one, and with exactly one child
removes the whole layout instead (`removeColumnLayout`). -/

/-- A column layout as the column commands see it: its `columns` attribute
and the attribute records of its column children. -/
structure ColumnLayoutNode where
  columns : Int
  cols : List Attrs
  deriving Repr, DecidableEq

/-- `addColumn` on its target layout. -/
def addColumnOp (L : ColumnLayoutNode) : ColumnLayoutNode :=
  { columns := L.columns + 1, cols := L.cols ++ [Attrs.default] }

/-- `removeColumn` on its target layout, where `i` is the index of the
column holding the selection.  `none` means the whole layout was removed
(the single-column branch, which delegates to `removeColumnLayout`); an
out-of-range `i` models a selection that is not inside any column of this
layout, for which the command finds no column and leaves the layout
unchanged. -/
def removeColumnOp (L : ColumnLayoutNode) (i : Nat) : Option ColumnLayoutNode :=
  if i < L.cols.length then
    if 1 < L.cols.length then
      some { columns := L.columns - 1, cols := L.cols.eraseIdx i }
    else
      none
  else
    some L

/-- One step of a column-command sequence. -/
inductive ColOp where
  | add
  | remove (i : Nat)
  deriving Repr, DecidableEq

def applyColOp : ColumnLayoutNode → ColOp → Option ColumnLayoutNode
  | L, .add => some (addColumnOp L)
  | L, .remove i => removeColumnOp L i

/-- Run a sequence of column commands; `none` means the layout has been
removed, after which the remaining commands are vacuous. -/
def runColOps (L : Option ColumnLayoutNode) : List ColOp → Option ColumnLayoutNode
  | [] => L
  | op :: ops => runColOps (L.bind fun l => applyColOp l op) ops

/-- The column-count invariant: either the layout no longer exists, or its
`columns` attribute equals its number of column children. -/
def layoutSynced : Option ColumnLayoutNode → Prop
  | none => True
  | some L => L.columns = L.cols.length

end EditorPlugin

namespace EditorPlugin

/-! ## Theorems: style resolver (C4) -/

/-- The resolver output as §4.1 of the spec words it, category by category in
fixed order — background, border (style + all four widths + color if set),
radius, padding — each category emitted only under its condition.  Written
from the spec's words, for comparison with `buildBorderStyleDecls`, which is
translated from the code. -/
def specResolverDecls (a : Attrs) : List CssDecl :=
  (if truthyStr a.backgroundColor ∧ a.backgroundColor ≠ some "transparent"
    then [⟨"background-color", .raw (a.backgroundColor.getD "")⟩] else [])
  ++ (if a.borderTopWidth.getD 0 ≠ 0 ∨ a.borderRightWidth.getD 0 ≠ 0
        ∨ a.borderBottomWidth.getD 0 ≠ 0 ∨ a.borderLeftWidth.getD 0 ≠ 0
    then [⟨"border-style", .raw "solid"⟩,
          ⟨"border-width", .quad (a.borderTopWidth.getD 0) (a.borderRightWidth.getD 0)
            (a.borderBottomWidth.getD 0) (a.borderLeftWidth.getD 0)⟩]
      ++ (if truthyStr a.borderColor
            then [⟨"border-color", .raw (a.borderColor.getD "")⟩] else [])
    else [])
  ++ (if a.borderTopLeftRadius.getD 0 ≠ 0 ∨ a.borderTopRightRadius.getD 0 ≠ 0
        ∨ a.borderBottomRightRadius.getD 0 ≠ 0 ∨ a.borderBottomLeftRadius.getD 0 ≠ 0
    then [⟨"border-radius", .quad (a.borderTopLeftRadius.getD 0) (a.borderTopRightRadius.getD 0)
            (a.borderBottomRightRadius.getD 0) (a.borderBottomLeftRadius.getD 0)⟩] else [])
  ++ (if a.paddingTop.getD 0 ≠ 0 ∨ a.paddingRight.getD 0 ≠ 0
        ∨ a.paddingBottom.getD 0 ≠ 0 ∨ a.paddingLeft.getD 0 ≠ 0
    then [⟨"padding", .quad (a.paddingTop.getD 0) (a.paddingRight.getD 0)
            (a.paddingBottom.getD 0) (a.paddingLeft.getD 0)⟩] else [])

/-- The declaration list of the source resolver coincides with the spec's
category-by-category description. -/
theorem buildBorderStyleDecls_eq_spec (a : Attrs) :
    buildBorderStyleDecls a = specResolverDecls a := by
  simp only [buildBorderStyleDecls, specResolverDecls]
  split_ifs <;> simp_all

/-- The literal string parts and the rendered structured declarations agree. -/
theorem buildBorderStylePartsLit_eq (a : Attrs) :
    buildBorderStylePartsLit a = buildBorderStyleParts a := by
  simp only [buildBorderStylePartsLit, buildBorderStyleParts, buildBorderStyleDecls]
  split_ifs <;> simp_all [CssDecl.render, CssVal.render, String.append_assoc]

end EditorPlugin

namespace EditorPlugin

/-- C4: for every style-attribute bag the resolver emits, in fixed category
order, background-color only when set and not "transparent"; the border
category only when some side width is non-zero (then all four widths, the
solid border-style, and border-color when set); radius and padding
categories only when some value is non-zero (then all four values); when
all four border widths are 0 or unset no border-style/width/color
declaration appears, and one non-zero side makes all four widths appear. -/
theorem buildBorderStyle_category_emission (a : Attrs) :
    buildBorderStyleDecls a = specResolverDecls a
    ∧ buildBorderStyle a = String.intercalate "; " ((specResolverDecls a).map CssDecl.render)
    ∧ ((a.borderTopWidth.getD 0 = 0 ∧ a.borderRightWidth.getD 0 = 0
        ∧ a.borderBottomWidth.getD 0 = 0 ∧ a.borderLeftWidth.getD 0 = 0) →
        ∀ d ∈ buildBorderStyleDecls a,
          d.prop ≠ "border-style" ∧ d.prop ≠ "border-width" ∧ d.prop ≠ "border-color")
    ∧ ((a.borderTopWidth.getD 0 ≠ 0 ∨ a.borderRightWidth.getD 0 ≠ 0
        ∨ a.borderBottomWidth.getD 0 ≠ 0 ∨ a.borderLeftWidth.getD 0 ≠ 0) →
        CssDecl.mk "border-width" (.quad (a.borderTopWidth.getD 0) (a.borderRightWidth.getD 0)
          (a.borderBottomWidth.getD 0) (a.borderLeftWidth.getD 0)) ∈ buildBorderStyleDecls a) := by
  refine ⟨buildBorderStyleDecls_eq_spec a, ?_, ?_, ?_⟩
  · unfold buildBorderStyle buildBorderStyleParts
    rw [buildBorderStyleDecls_eq_spec]
  · rintro ⟨h1, h2, h3, h4⟩ d hd
    rw [buildBorderStyleDecls_eq_spec] at hd
    unfold specResolverDecls at hd
    rw [h1, h2, h3, h4] at hd
    simp only [ne_eq, not_true_eq_false, false_or, if_false] at hd
    split_ifs at hd <;> simp_all <;> rcases hd with rfl | rfl | rfl <;> simp
  · intro h
    rw [buildBorderStyleDecls_eq_spec]
    unfold specResolverDecls
    rw [if_pos h]
    simp

/-- Witness for `buildBorderStyle_category_emission` at a bag with a single
non-zero left border width. -/
theorem buildBorderStyle_category_emission_witness :
    buildBorderStyleDecls { borderLeftWidth := some 2 } = specResolverDecls { borderLeftWidth := some 2 }
    ∧ buildBorderStyle { borderLeftWidth := some 2 }
        = String.intercalate "; " ((specResolverDecls { borderLeftWidth := some 2 }).map CssDecl.render)
    ∧ (((({ borderLeftWidth := some 2 } : Attrs)).borderTopWidth.getD 0 = 0
        ∧ (({ borderLeftWidth := some 2 } : Attrs)).borderRightWidth.getD 0 = 0
        ∧ (({ borderLeftWidth := some 2 } : Attrs)).borderBottomWidth.getD 0 = 0
        ∧ (({ borderLeftWidth := some 2 } : Attrs)).borderLeftWidth.getD 0 = 0) →
        ∀ d ∈ buildBorderStyleDecls { borderLeftWidth := some 2 },
          d.prop ≠ "border-style" ∧ d.prop ≠ "border-width" ∧ d.prop ≠ "border-color")
    ∧ (((({ borderLeftWidth := some 2 } : Attrs)).borderTopWidth.getD 0 ≠ 0
        ∨ (({ borderLeftWidth := some 2 } : Attrs)).borderRightWidth.getD 0 ≠ 0
        ∨ (({ borderLeftWidth := some 2 } : Attrs)).borderBottomWidth.getD 0 ≠ 0
        ∨ (({ borderLeftWidth := some 2 } : Attrs)).borderLeftWidth.getD 0 ≠ 0) →
        CssDecl.mk "border-width" (.quad ((({ borderLeftWidth := some 2 } : Attrs)).borderTopWidth.getD 0)
          ((({ borderLeftWidth := some 2 } : Attrs)).borderRightWidth.getD 0)
          ((({ borderLeftWidth := some 2 } : Attrs)).borderBottomWidth.getD 0)
          ((({ borderLeftWidth := some 2 } : Attrs)).borderLeftWidth.getD 0))
          ∈ buildBorderStyleDecls { borderLeftWidth := some 2 }) :=
  buildBorderStyle_category_emission { borderLeftWidth := some 2 }

/-! ## Theorems: resize clamp (C1) -/

/-- C1 counterexample: with the captured start widths a 7-column layout
produces by default (100/7 ≈ 14.3 each, as `100 / totalColumns` in the
mousedown handler), a large rightward delta leaves the left width at
200/7 - 15 = 95/7 ≈ 13.6, strictly below the 15% minimum, so the claim
"neither width is ever below 15%" is false as stated. -/
theorem resizeMove_below_min_cx :
    resizeMove (100/7) (100/7) 50 = (95/7, 15) ∧ (resizeMove (100/7) (100/7) 50).1 < 15 := by
  constructor <;> norm_num [resizeMove]

/-- C1 (amended): whenever the captured start widths sum to at least 30%
(twice the fixed 15% minimum — in particular whenever both start widths
are themselves at least the minimum), every pointer-move delta, however
large, yields widths that are both at least 15% and sum to exactly
startLeft + startRight. -/
theorem resizeMove_clamp (sl sr d : ℚ) (h : 30 ≤ sl + sr) :
    15 ≤ (resizeMove sl sr d).1 ∧ 15 ≤ (resizeMove sl sr d).2
    ∧ (resizeMove sl sr d).1 + (resizeMove sl sr d).2 = sl + sr := by
  simp only [resizeMove]
  split_ifs with h1 h2 h3 <;> dsimp only at * <;>
    refine ⟨by linarith, by linarith, by ring⟩

/-- Witness for `resizeMove_clamp`: the spec's own scenario — a 2-column
50/50 layout dragged right by 60% of the layout width clamps to 85/15. -/
theorem resizeMove_clamp_witness :
    30 ≤ (50 : ℚ) + 50
    ∧ (15 ≤ (resizeMove 50 50 60).1 ∧ 15 ≤ (resizeMove 50 50 60).2
       ∧ (resizeMove 50 50 60).1 + (resizeMove 50 50 60).2 = 50 + 50) :=
  ⟨by norm_num, resizeMove_clamp 50 50 60 (by norm_num)⟩

/-! ## Theorems: column count invariant (C2) -/

theorem layoutSynced_step (o : Option ColumnLayoutNode) (op : ColOp)
    (h : layoutSynced o) : layoutSynced (o.bind fun l => applyColOp l op) := by
  cases o with
  | none => simp [layoutSynced]
  | some L =>
    cases op with
    | add =>
      simp only [layoutSynced] at h
      simp only [Option.bind, applyColOp, addColumnOp, layoutSynced, List.length_append,
        List.length_singleton]
      omega
    | remove i =>
      simp only [layoutSynced] at h
      simp only [Option.bind, applyColOp, removeColumnOp]
      split_ifs with h1 h2
      · have hlen := List.length_eraseIdx_add_one (l := L.cols) h1
        simp only [layoutSynced]
        omega
      · simp [layoutSynced]
      · simpa [layoutSynced] using h

theorem layoutSynced_runColOps (ops : List ColOp) (o : Option ColumnLayoutNode)
    (h : layoutSynced o) : layoutSynced (runColOps o ops) := by
  induction ops generalizing o with
  | nil => simpa [runColOps] using h
  | cons op ops ih =>
    simpa [runColOps] using ih _ (layoutSynced_step o op h)

/-- C2: for every sequence of addColumn/removeColumn operations on a column
layout whose `columns` attribute initially equals its child count, after
each operation (i.e. after every prefix of the sequence) the layout either
no longer exists — the single-column removeColumn removed it whole — or its
`columns` attribute still equals the number of column children. -/
theorem columns_attr_invariant (ops : List ColOp) (L : ColumnLayoutNode)
    (h : L.columns = L.cols.length) (n : Nat) :
    layoutSynced (runColOps (some L) (ops.take n)) :=
  layoutSynced_runColOps (ops.take n) (some L) h

/-- Witness for `columns_attr_invariant`: a 2-column layout, one add and
three removes (the last removal hits a single-column layout and removes it
whole). -/
theorem columns_attr_invariant_witness :
    (ColumnLayoutNode.mk 2 [Attrs.default, Attrs.default]).columns
      = (ColumnLayoutNode.mk 2 [Attrs.default, Attrs.default]).cols.length
    ∧ layoutSynced (runColOps (some (ColumnLayoutNode.mk 2 [Attrs.default, Attrs.default]))
        ([ColOp.add, ColOp.remove 0, ColOp.remove 1, ColOp.remove 0].take 4)) :=
  ⟨by decide, columns_attr_invariant [ColOp.add, ColOp.remove 0, ColOp.remove 1, ColOp.remove 0]
    (ColumnLayoutNode.mk 2 [Attrs.default, Attrs.default]) (by decide) 4⟩

end EditorPlugin

namespace EditorPlugin

/-! ## The document tree

ProseMirror documents are ordered trees of typed nodes with attributes;
inline content is text.  Flat integer positions are embedded as resolved
paths of child indices; `$from.node(d)` of a cursor whose deepest node sits
at path `p` is the node at the length-`d` prefix of `p`. -/

inductive DNode where
  | elem (ty : String) (attrs : Attrs) (children : List DNode)
  | text (s : String)
  deriving Repr

/-- `node.type.name` (ProseMirror text nodes have type name "text"). -/
def nodeTy : DNode → String
  | .elem t _ _ => t
  | .text _ => "text"

def nodeAttrs : DNode → Attrs
  | .elem _ a _ => a
  | .text _ => Attrs.default

/-- `node.childCount`. -/
def childCount : DNode → Nat
  | .elem _ _ cs => cs.length
  | .text _ => 0

/-- Apply a function to the element at index `i` of a list. -/
def updIdx (f : α → α) : Nat → List α → List α
  | _, [] => []
  | 0, x :: xs => f x :: xs
  | i + 1, x :: xs => x :: updIdx f i xs

/-- Insert an element before index `i` (at the end when `i` exceeds the
length); models ProseMirror insertion at a child boundary. -/
def insertIdxAt (a : α) : Nat → List α → List α
  | 0, xs => a :: xs
  | _ + 1, [] => [a]
  | i + 1, x :: xs => x :: insertIdxAt a i xs

/-- The node at a path of child indices. -/
def getNode : List Nat → DNode → Option DNode
  | [], n => some n
  | i :: p, .elem _ _ cs => (cs[i]?).bind (getNode p)
  | _ :: _, .text _ => none

/-- Apply `f` to the node at the given path (identity when the path is
dangling). -/
def modifyNode (f : DNode → DNode) : List Nat → DNode → DNode
  | [], n => f n
  | i :: p, .elem t a cs => .elem t a (updIdx (modifyNode f p) i cs)
  | _ :: _, .text s => .text s

/-- Delete the node at a (non-empty) path, as `tr.delete(pos, pos + size)`
does for a whole node. -/
def deleteAt : List Nat → DNode → DNode
  | [], n => n
  | [i], .elem t a cs => .elem t a (cs.eraseIdx i)
  | i :: p, .elem t a cs => .elem t a (updIdx (deleteAt p) i cs)
  | _, .text s => .text s

end EditorPlugin

namespace EditorPlugin

mutual

def dnodeBEq : DNode → DNode → Bool
  | .elem t a cs, .elem t' a' cs' => t == t' && a == a' && dnodeListBEq cs cs'
  | .text s, .text s' => s == s'
  | _, _ => false

def dnodeListBEq : List DNode → List DNode → Bool
  | [], [] => true
  | x :: xs, y :: ys => dnodeBEq x y && dnodeListBEq xs ys
  | _, _ => false

end

mutual

def dnodeBEq_eq : ∀ x y, dnodeBEq x y = true → x = y
  | .elem t a cs, .elem t' a' cs', h => by
      simp only [dnodeBEq, Bool.and_eq_true, beq_iff_eq] at h
      obtain ⟨⟨rfl, rfl⟩, h3⟩ := h
      rw [dnodeListBEq_eq cs cs' h3]
  | .text s, .text s', h => by
      simp only [dnodeBEq, beq_iff_eq] at h
      rw [h]
  | .elem _ _ _, .text _, h => by simp [dnodeBEq] at h
  | .text _, .elem _ _ _, h => by simp [dnodeBEq] at h

def dnodeListBEq_eq : ∀ xs ys, dnodeListBEq xs ys = true → xs = ys
  | [], [], _ => rfl
  | x :: xs, y :: ys, h => by
      simp only [dnodeListBEq, Bool.and_eq_true] at h
      rw [dnodeBEq_eq x y h.1, dnodeListBEq_eq xs ys h.2]
  | [], _ :: _, h => by simp [dnodeListBEq] at h
  | _ :: _, [], h => by simp [dnodeListBEq] at h

end

mutual

def dnodeBEq_refl : ∀ x, dnodeBEq x x = true
  | .elem t a cs => by
      simp only [dnodeBEq, Bool.and_eq_true]
      exact ⟨⟨by simp, by simp⟩, dnodeListBEq_refl cs⟩
  | .text s => by simp [dnodeBEq]

def dnodeListBEq_refl : ∀ xs, dnodeListBEq xs xs = true
  | [] => rfl
  | x :: xs => by
      simp only [dnodeListBEq, Bool.and_eq_true]
      exact ⟨dnodeBEq_refl x, dnodeListBEq_refl xs⟩

end

instance : DecidableEq DNode := fun x y =>
  decidable_of_iff (dnodeBEq x y = true)
    ⟨dnodeBEq_eq x y, fun h => h ▸ dnodeBEq_refl x⟩

end EditorPlugin

namespace EditorPlugin

/-! ## Path lemmas -/

theorem updIdx_getElem_ne (f : α → α) : ∀ (i j : Nat) (l : List α), j ≠ i →
    (updIdx f i l)[j]? = l[j]?
  | _, _, [], _ => by simp [updIdx]
  | 0, j, x :: xs, h => by
      cases j with
      | zero => exact absurd rfl h
      | succ k => simp [updIdx]
  | i + 1, 0, x :: xs, _ => by simp [updIdx]
  | i + 1, j + 1, x :: xs, h => by
      simpa [updIdx] using updIdx_getElem_ne f i j xs (by omega)

theorem updIdx_getElem_self (f : α → α) : ∀ (i : Nat) (l : List α),
    (updIdx f i l)[i]? = (l[i]?).map f
  | _, [] => by simp [updIdx]
  | 0, x :: xs => by simp [updIdx]
  | i + 1, x :: xs => by simpa [updIdx] using updIdx_getElem_self f i xs

theorem getNode_append : ∀ (p q : List Nat) (doc : DNode),
    getNode (p ++ q) doc = (getNode p doc).bind (getNode q)
  | [], q, doc => by simp [getNode]
  | i :: p, q, .elem t a cs => by
      simp only [List.cons_append, getNode, Option.bind_assoc]
      cases cs[i]? with
      | none => rfl
      | some c => simpa using getNode_append p q c
  | _ :: _, q, .text s => by simp [getNode]

theorem getNode_modifyNode_self (f : DNode → DNode) : ∀ (p : List Nat) (doc : DNode),
    getNode p (modifyNode f p doc) = (getNode p doc).map f
  | [], doc => by simp [getNode, modifyNode]
  | i :: p, .elem t a cs => by
      simp only [getNode, modifyNode, updIdx_getElem_self]
      cases cs[i]? with
      | none => rfl
      | some c => simpa using getNode_modifyNode_self f p c
  | _ :: _, .text s => by simp [getNode, modifyNode]

/-- What remains of a node when its children are disregarded: its type and
its attribute record. -/
inductive NodeLabel where
  | el (ty : String) (attrs : Attrs)
  | tx (s : String)
  deriving Repr, DecidableEq

def label : DNode → NodeLabel
  | .elem t a _ => .el t a
  | .text s => .tx s

/-- A modification that rewrites only the attributes of its target leaves
the label (type and attributes) of every other node in the tree unchanged;
nodes outside the target's subtree keep even their subtrees. -/
theorem label_getNode_modifyNode (f : DNode → DNode)
    (hf : ∀ t a cs, ∃ a', f (DNode.elem t a cs) = DNode.elem t a' cs)
    (hft : ∀ s, f (DNode.text s) = DNode.text s) :
    ∀ (q r : List Nat) (doc : DNode), r ≠ q →
      (getNode r (modifyNode f q doc)).map label = (getNode r doc).map label
  | [], r, .elem t a cs, hr => by
      obtain ⟨a', ha'⟩ := hf t a cs
      cases r with
      | nil => exact absurd rfl hr
      | cons j r' => simp [modifyNode, ha', getNode]
  | [], r, .text s, _ => by simp [modifyNode, hft s]
  | i :: q', [], .elem t a cs, _ => by simp [modifyNode, getNode, label]
  | i :: q', [], .text s, _ => by simp [modifyNode]
  | i :: q', j :: r', .elem t a cs, hr => by
      by_cases hij : j = i
      · subst hij
        have hr' : r' ≠ q' := by
          intro h
          exact hr (by rw [h])
        simp only [modifyNode, getNode, updIdx_getElem_self]
        cases cs[j]? with
        | none => rfl
        | some c =>
            simpa using label_getNode_modifyNode f hf hft q' r' c hr'
      · simp [modifyNode, getNode, updIdx_getElem_ne (modifyNode f q') i j cs hij]
  | i :: q', j :: r', .text s, _ => by simp [modifyNode]

end EditorPlugin

namespace EditorPlugin

/-! ## Container selection and traversal (BlockStyle.ts lines 311-412)

`setParentContainerStyle` first checks whether the selection is a
`NodeSelection` of a container-type node (that node wins immediately);
otherwise it walks `depth` from `$from.depth` down to 1 and takes the first
ancestor whose type is in `containerTypes`. -/

/-- `this.options.containerTypes` (BlockStyle.ts line 136). -/
def containerTypes : List String := ["columnLayout", "column", "divBlock"]

/-- A selection: a text cursor whose deepest containing node sits at `path`,
or an explicit whole-node selection (`NodeSelection`) of the node at
`path`.  For a cursor, `$from.depth = path.length`; for a node selection
`$from` sits just before the node, so `$from.depth = path.length - 1`. -/
inductive Sel where
  | cursor (path : List Nat)
  | nodeSel (path : List Nat)

/-- Does a container-type node live at this path? -/
def containerAtB (doc : DNode) (q : List Nat) : Bool :=
  match getNode q doc with
  | some n => decide (nodeTy n ∈ containerTypes)
  | none => false

/-- The traversal loop: `depth` runs from `d` down to 1, returning the first
depth whose ancestor node has a container type. -/
def findContainerDepth (doc : DNode) (p : List Nat) : Nat → Option Nat
  | 0 => none
  | d + 1 =>
    match getNode (p.take (d + 1)) doc with
    | some n =>
        if nodeTy n ∈ containerTypes then some (d + 1)
        else findContainerDepth doc p d
    | none => findContainerDepth doc p d

/-- Container resolution of `setParentContainerStyle`: an explicit
whole-node selection of a container wins immediately; otherwise ancestors
of `$from` are walked upward from the deepest. -/
def resolveContainer (doc : DNode) : Sel → Option (List Nat)
  | .nodeSel p =>
      match getNode p doc with
      | some n =>
          if nodeTy n ∈ containerTypes then some p
          else (findContainerDepth doc p.dropLast p.dropLast.length).map (p.dropLast.take ·)
      | none => none
  | .cursor p => (findContainerDepth doc p p.length).map (p.take ·)

/-- `setNodeMarkup(containerPos, undefined, mergedAttrs)` on the resolved
container: the merge of the incoming style attributes over the container's
existing attributes. -/
def mergeAttrsNode (patch : StylePatch) : DNode → DNode
  | .elem t a cs => .elem t (mergeAttrs a patch) cs
  | .text s => .text s

/-- `setParentContainerStyle(attributes)` (BlockStyle.ts lines 311-385):
resolve the container, merge the attributes over its existing ones, write
the merge; `none` models the command returning `false` with no mutation. -/
def setParentContainerStyle (doc : DNode) (sel : Sel) (patch : StylePatch) :
    Option DNode :=
  match resolveContainer doc sel with
  | some q => some (modifyNode (mergeAttrsNode patch) q doc)
  | none => none

theorem findContainerDepth_spec (doc : DNode) (p : List Nat) :
    ∀ d e, 0 < e → e ≤ d → containerAtB doc (p.take e) = true →
      (∀ e', e < e' → e' ≤ d → containerAtB doc (p.take e') = false) →
      findContainerDepth doc p d = some e := by
  intro d
  induction d with
  | zero => omega
  | succ d ih =>
    intro e he hed hc hnone
    by_cases htop : e = d + 1
    · subst htop
      unfold containerAtB at hc
      unfold findContainerDepth
      cases hg : getNode (p.take (d + 1)) doc with
      | none => rw [hg] at hc; exact absurd hc (by simp)
      | some n =>
          rw [hg] at hc
          simp only [decide_eq_true_eq] at hc
          simp [hc]
    · have hlt : e ≤ d := by omega
      have htop' : containerAtB doc (p.take (d + 1)) = false :=
        hnone (d + 1) (by omega) (by omega)
      unfold containerAtB at htop'
      unfold findContainerDepth
      cases hg : getNode (p.take (d + 1)) doc with
      | none =>
          dsimp only
          exact ih e he hlt hc (fun e' h1 h2 => hnone e' h1 (by omega))
      | some n =>
          rw [hg] at htop'
          simp only [decide_eq_true_eq, decide_eq_false_iff_not] at htop'
          dsimp only
          rw [if_neg htop']
          exact ih e he hlt hc (fun e' h1 h2 => hnone e' h1 (by omega))

end EditorPlugin

namespace EditorPlugin

/-! ## Theorems: container resolution priority (C5) -/

/-- C5: an explicit whole-node selection of a container-type node resolves
to that node regardless of what it is nested in (selection-explicit takes
priority over ancestor search); for a cursor, the first container ancestor
found walking upward from the deepest ancestor (depth `e`, with every
deeper ancestor up to the cursor a non-container) is resolved. -/
theorem findNearestContainer_selection_priority :
    (∀ (doc : DNode) (p : List Nat) (n : DNode),
        getNode p doc = some n → nodeTy n ∈ containerTypes →
        resolveContainer doc (Sel.nodeSel p) = some p)
    ∧ (∀ (doc : DNode) (p : List Nat) (e : Nat),
        0 < e → e ≤ p.length → containerAtB doc (p.take e) = true →
        (∀ e', e < e' → e' ≤ p.length → containerAtB doc (p.take e') = false) →
        resolveContainer doc (Sel.cursor p) = some (p.take e)) := by
  constructor
  · intro doc p n hget hmem
    unfold resolveContainer
    dsimp only
    rw [hget]
    simp [hmem]
  · intro doc p e he hlen hc hnone
    unfold resolveContainer
    dsimp only
    rw [findContainerDepth_spec doc p p.length e he hlen hc hnone]
    rfl

/-- A document with a DivBlock nested inside a ColumnLayout's column:
doc > columnLayout > column > divBlock > paragraph > text. -/
def nestedDoc : DNode :=
  .elem "doc" Attrs.default
    [.elem "columnLayout" { Attrs.default with columns := 1 }
      [.elem "column" Attrs.default
        [.elem "divBlock" Attrs.default
          [.elem "paragraph" Attrs.default [.text "hello"]]]]]

/-- Witness for `findNearestContainer_selection_priority`: a whole-node
selection of the DivBlock at path [0,0,0] of `nestedDoc` — nested inside a
ColumnLayout — resolves to the DivBlock itself, and a cursor inside the
paragraph resolves to the DivBlock (depth 3), not to the Column or the
ColumnLayout above it. -/
theorem findNearestContainer_selection_priority_witness :
    resolveContainer nestedDoc (Sel.nodeSel [0, 0, 0]) = some [0, 0, 0]
    ∧ resolveContainer nestedDoc (Sel.cursor [0, 0, 0, 0]) = some [0, 0, 0] :=
  ⟨findNearestContainer_selection_priority.1 nestedDoc [0, 0, 0]
      (DNode.elem "divBlock" Attrs.default
        [DNode.elem "paragraph" Attrs.default [DNode.text "hello"]])
      (by decide) (by decide),
   by
    have := findNearestContainer_selection_priority.2 nestedDoc [0, 0, 0, 0] 3
      (by decide) (by decide) (by decide)
      (fun e' h1 h2 => by
        have h2' : e' ≤ 4 := by simpa using h2
        have he' : e' = 4 := by omega
        subst he'
        decide)
    simpa using this⟩

/-! ## Theorems: setParentContainerStyle frame and merge (C6) -/

/-- Attributes absent from the patch keep their value through the merge;
`width` and `columns` are never in the patch and are always kept. -/
def patchPreservesUnset (a : Attrs) (p : StylePatch) : Prop :=
  (mergeAttrs a p).width = a.width
  ∧ (mergeAttrs a p).columns = a.columns
  ∧ (p.backgroundColor = none → (mergeAttrs a p).backgroundColor = a.backgroundColor)
  ∧ (p.borderTopWidth = none → (mergeAttrs a p).borderTopWidth = a.borderTopWidth)
  ∧ (p.borderRightWidth = none → (mergeAttrs a p).borderRightWidth = a.borderRightWidth)
  ∧ (p.borderBottomWidth = none → (mergeAttrs a p).borderBottomWidth = a.borderBottomWidth)
  ∧ (p.borderLeftWidth = none → (mergeAttrs a p).borderLeftWidth = a.borderLeftWidth)
  ∧ (p.borderColor = none → (mergeAttrs a p).borderColor = a.borderColor)
  ∧ (p.borderTopLeftRadius = none → (mergeAttrs a p).borderTopLeftRadius = a.borderTopLeftRadius)
  ∧ (p.borderTopRightRadius = none → (mergeAttrs a p).borderTopRightRadius = a.borderTopRightRadius)
  ∧ (p.borderBottomRightRadius = none → (mergeAttrs a p).borderBottomRightRadius = a.borderBottomRightRadius)
  ∧ (p.borderBottomLeftRadius = none → (mergeAttrs a p).borderBottomLeftRadius = a.borderBottomLeftRadius)
  ∧ (p.paddingTop = none → (mergeAttrs a p).paddingTop = a.paddingTop)
  ∧ (p.paddingRight = none → (mergeAttrs a p).paddingRight = a.paddingRight)
  ∧ (p.paddingBottom = none → (mergeAttrs a p).paddingBottom = a.paddingBottom)
  ∧ (p.paddingLeft = none → (mergeAttrs a p).paddingLeft = a.paddingLeft)

theorem patchPreservesUnset_holds (a : Attrs) (p : StylePatch) :
    patchPreservesUnset a p := by
  unfold patchPreservesUnset mergeAttrs
  refine ⟨rfl, rfl, ?_, ?_, ?_, ?_, ?_, ?_, ?_, ?_, ?_, ?_, ?_, ?_, ?_, ?_⟩ <;>
    intro h <;> rw [h]

/-- C6: a successful `setParentContainerStyle` call resolves a container
`q` and (i) rewrites exactly the node at `q`, replacing its attributes by
the merge of the patch over its previous attributes and keeping its type
and children, (ii) preserves every attribute the patch does not mention —
in particular a Column's `width` — and (iii) leaves the type and attributes
of every node at any other path (the enclosing Column and ColumnLayout
included) unchanged, with subtrees outside `q` untouched. -/
theorem setParentContainerStyle_merge_frame (doc : DNode) (sel : Sel)
    (patch : StylePatch) (doc' : DNode)
    (h : setParentContainerStyle doc sel patch = some doc') :
    ∃ q, resolveContainer doc sel = some q
      ∧ (∀ t a cs, getNode q doc = some (DNode.elem t a cs) →
          getNode q doc' = some (DNode.elem t (mergeAttrs a patch) cs))
      ∧ (∀ a : Attrs, patchPreservesUnset a patch)
      ∧ (∀ r, r ≠ q → (getNode r doc').map label = (getNode r doc).map label) := by
  unfold setParentContainerStyle at h
  cases hres : resolveContainer doc sel with
  | none => rw [hres] at h; exact absurd h (by simp)
  | some q =>
      rw [hres] at h
      simp only [Option.some.injEq] at h
      subst h
      refine ⟨q, rfl, ?_, fun a => patchPreservesUnset_holds a patch, ?_⟩
      · intro t a cs hget
        rw [getNode_modifyNode_self, hget]
        rfl
      · intro r hr
        exact label_getNode_modifyNode (mergeAttrsNode patch)
          (fun t a cs => ⟨mergeAttrs a patch, rfl⟩) (fun s => rfl) q r doc hr

end EditorPlugin

namespace EditorPlugin

/-- The spec's scenario patch: background #ff0000 plus paddingTop 10. -/
def scenarioPatch : StylePatch := { backgroundColor := some "#ff0000", paddingTop := some 10 }

/-- `nestedDoc` after the scenario patch has been applied to its DivBlock. -/
def nestedDocStyled : DNode :=
  .elem "doc" Attrs.default
    [.elem "columnLayout" { Attrs.default with columns := 1 }
      [.elem "column" Attrs.default
        [.elem "divBlock" { Attrs.default with backgroundColor := some "#ff0000", paddingTop := some 10 }
          [.elem "paragraph" Attrs.default [.text "hello"]]]]]

/-- Witness for `setParentContainerStyle_merge_frame`: the spec's scenario —
a cursor in a paragraph nested in a DivBlock inside a ColumnLayout's
column, patched with background #ff0000 and paddingTop 10; only the
DivBlock changes. -/
theorem setParentContainerStyle_merge_frame_witness :
    ∃ q, resolveContainer nestedDoc (Sel.cursor [0, 0, 0, 0]) = some q
      ∧ (∀ t a cs, getNode q nestedDoc = some (DNode.elem t a cs) →
          getNode q nestedDocStyled = some (DNode.elem t (mergeAttrs a scenarioPatch) cs))
      ∧ (∀ a : Attrs, patchPreservesUnset a scenarioPatch)
      ∧ (∀ r, r ≠ q → (getNode r nestedDocStyled).map label = (getNode r nestedDoc).map label) :=
  setParentContainerStyle_merge_frame nestedDoc (Sel.cursor [0, 0, 0, 0])
    scenarioPatch nestedDocStyled (by decide)

end EditorPlugin

namespace EditorPlugin

/-! ## removeColumn / removeColumnLayout (src/src/utils/emailExport.ts
lines 776-793 and 830-865)

`removeColumn` walks `depth` from `$from.depth` down; at the first `column`
ancestor it inspects the parent: a `columnLayout` with more than one child
gets that column deleted and its `columns` attribute decremented (the
`updateAttributes('columnLayout', ...)` call rewrites every columnLayout
ancestor of the selection, which after the deletion still sits inside the
target layout); a parent with exactly one child delegates to
`removeColumnLayout`, which only inspects `$from.node(-1)` and
`$from.node(-2)` and deletes the nearest columnLayout ancestor (tiptap's
`deleteNode`) when one of the two is a columnLayout, returning `false`
otherwise. -/

/-- Is the node at this path a columnLayout? -/
def layoutAtB (doc : DNode) (q : List Nat) : Bool :=
  match getNode q doc with
  | some n => decide (nodeTy n = "columnLayout")
  | none => false

/-- The scan of tiptap's `deleteNode('columnLayout')`: the deepest
columnLayout ancestor (depth from `d` down to 1). -/
def deepestLayoutDepth (doc : DNode) (p : List Nat) : Nat → Option Nat
  | 0 => none
  | d + 1 =>
      match getNode (p.take (d + 1)) doc with
      | some n =>
          if nodeTy n = "columnLayout" then some (d + 1)
          else deepestLayoutDepth doc p d
      | none => deepestLayoutDepth doc p d

/-- `commands.deleteNode('columnLayout')`: delete the nearest columnLayout
ancestor of the selection; `none` when there is none. -/
def deleteNearestColumnLayout (doc : DNode) (p : List Nat) : Option DNode :=
  (deepestLayoutDepth doc p p.length).map fun d => deleteAt (p.take d) doc

/-- `removeColumnLayout` (lines 776-793): checks `$from.node(-1)` then
`$from.node(-2)`; on a match, delete the layout, otherwise return false. -/
def removeColumnLayout (doc : DNode) (p : List Nat) : Option DNode :=
  match getNode (p.take (p.length - 1)) doc with
  | some n =>
      if nodeTy n = "columnLayout" then deleteNearestColumnLayout doc p
      else
        match getNode (p.take (p.length - 2)) doc with
        | some n2 =>
            if nodeTy n2 = "columnLayout" then deleteNearestColumnLayout doc p
            else none
        | none => none
  | none => none

/-- `updateAttributes('columnLayout', {columns})`: sets the
`columns` attribute on every columnLayout node among the ancestors
(prefixes of `q`, the target layout's path included). -/
def setColumnsAttrNode (c : Int) : DNode → DNode
  | .elem t a cs => .elem t { a with columns := c } cs
  | .text s => .text s

def updateLayoutsOnChain (doc : DNode) (q : List Nat) (c : Int) : DNode :=
  (List.range (q.length + 1)).foldl
    (fun acc e =>
      match getNode (q.take e) acc with
      | some n =>
          if nodeTy n = "columnLayout"
          then modifyNode (setColumnsAttrNode c) (q.take e) acc
          else acc
      | none => acc) doc

/-- The `while (depth > 0)` loop of `removeColumn` (lines 836-862). -/
def removeColumnLoop (doc : DNode) (p : List Nat) : Nat → Option DNode
  | 0 => none
  | d + 1 =>
      match getNode (p.take (d + 1)) doc with
      | some n =>
          if nodeTy n = "column" then
            match getNode (p.take d) doc with
            | some L =>
                if nodeTy L = "columnLayout" ∧ 1 < childCount L then
                  some (updateLayoutsOnChain (deleteAt (p.take (d + 1)) doc)
                    (p.take d) ((nodeAttrs L).columns - 1))
                else if childCount L = 1 then
                  removeColumnLayout doc p
                else removeColumnLoop doc p d
            | none => removeColumnLoop doc p d
          else removeColumnLoop doc p d
      | none => removeColumnLoop doc p d

/-- `removeColumn()`: `none` models the command returning `false` with no
mutation. -/
def removeColumn (doc : DNode) (p : List Nat) : Option DNode :=
  removeColumnLoop doc p p.length

end EditorPlugin

namespace EditorPlugin

theorem deepestLayoutDepth_spec (doc : DNode) (p : List Nat) :
    ∀ d e, 0 < e → e ≤ d → layoutAtB doc (p.take e) = true →
      (∀ e', e < e' → e' ≤ d → layoutAtB doc (p.take e') = false) →
      deepestLayoutDepth doc p d = some e := by
  intro d
  induction d with
  | zero => omega
  | succ d ih =>
    intro e he hed hc hnone
    by_cases htop : e = d + 1
    · subst htop
      unfold layoutAtB at hc
      unfold deepestLayoutDepth
      cases hg : getNode (p.take (d + 1)) doc with
      | none => rw [hg] at hc; exact absurd hc (by simp)
      | some n =>
          rw [hg] at hc
          simp only [decide_eq_true_eq] at hc
          simp [hc]
    · have hlt : e ≤ d := by omega
      have htop' : layoutAtB doc (p.take (d + 1)) = false :=
        hnone (d + 1) (by omega) (by omega)
      unfold layoutAtB at htop'
      unfold deepestLayoutDepth
      cases hg : getNode (p.take (d + 1)) doc with
      | none =>
          dsimp only
          exact ih e he hlt hc (fun e' h1 h2 => hnone e' h1 (by omega))
      | some n =>
          rw [hg] at htop'
          simp only [decide_eq_false_iff_not] at htop'
          dsimp only
          rw [if_neg htop']
          exact ih e he hlt hc (fun e' h1 h2 => hnone e' h1 (by omega))

/-- The deep-nesting document: a single-column layout whose column holds a
DivBlock holding the paragraph with the cursor. -/
def deepSingleColumnDoc : DNode :=
  .elem "doc" Attrs.default
    [.elem "columnLayout" { Attrs.default with columns := 1 }
      [.elem "column" Attrs.default
        [.elem "divBlock" Attrs.default
          [.elem "paragraph" Attrs.default [.text "x"]]]]]

/-- C7 counterexample: with the cursor in a paragraph nested inside a
DivBlock inside the single column, `removeColumn()` returns false and
removes nothing — the ColumnLayout survives — because `removeColumnLayout`
only inspects `$from.node(-1)` and `$from.node(-2)`, which here are the
DivBlock and the Column. -/
theorem removeColumn_deep_single_column_cx :
    removeColumn deepSingleColumnDoc [0, 0, 0, 0] = none
    ∧ containerAtB deepSingleColumnDoc [0] = true
    ∧ layoutAtB deepSingleColumnDoc [0] = true := by
  refine ⟨by decide, by decide, by decide⟩

/-- C7 (amended): when the block holding the selection sits directly inside
the single Column (so the ColumnLayout is `$from.node(-2)`), `removeColumn`
removes the entire ColumnLayout node — not just the column; for deeper
selections the command instead fails with no mutation. -/
theorem removeColumn_single_column_removes_layout
    (doc : DNode) (q : List Nat) (aL aC : Attrs) (cs : List DNode)
    (j : Nat) (tb : String) (ab : Attrs) (bs : List DNode)
    (hq0 : q ≠ [])
    (hq : getNode q doc = some (DNode.elem "columnLayout" aL [DNode.elem "column" aC cs]))
    (hj : cs[j]? = some (DNode.elem tb ab bs))
    (h1 : tb ≠ "column") (h2 : tb ≠ "columnLayout") :
    removeColumn doc (q ++ [0, j]) = some (deleteAt q doc) := by
  have hq0' : 0 < q.length := List.length_pos.mpr hq0
  have hlen : (q ++ [0, j]).length = q.length + 2 := by simp
  have hp2 : q ++ [0, j] = (q ++ [0]) ++ [j] := by simp
  have t0 : (q ++ [0, j]).take q.length = q := List.take_left' rfl
  have t1 : (q ++ [0, j]).take (q.length + 1) = q ++ [0] := by
    rw [hp2]; exact List.take_left' (by simp)
  have t2 : (q ++ [0, j]).take (q.length + 2) = q ++ [0, j] := by
    rw [← hlen, List.take_length]
  have f1 : getNode (q ++ [0]) doc = some (DNode.elem "column" aC cs) := by
    rw [getNode_append, hq]; simp [getNode]
  have f2 : getNode (q ++ [0, j]) doc = some (DNode.elem tb ab bs) := by
    rw [getNode_append, hq]; simp [getNode, hj]
  -- the deepest columnLayout ancestor is the layout at q
  have hdeep : deepestLayoutDepth doc (q ++ [0, j]) (q.length + 2) = some q.length := by
    apply deepestLayoutDepth_spec doc (q ++ [0, j]) (q.length + 2) q.length hq0' (by omega)
    · unfold layoutAtB
      rw [t0, hq]
      simp [nodeTy]
    · intro e' he1 he2
      have : e' = q.length + 1 ∨ e' = q.length + 2 := by omega
      rcases this with rfl | rfl
      · unfold layoutAtB
        rw [t1, f1]
        simp [nodeTy]
      · unfold layoutAtB
        rw [t2, f2]
        simp [nodeTy, h2]
  have hrcl : removeColumnLayout doc (q ++ [0, j]) = some (deleteAt q doc) := by
    unfold removeColumnLayout
    rw [hlen]
    have e1 : q.length + 2 - 1 = q.length + 1 := by omega
    have e2 : q.length + 2 - 2 = q.length := by omega
    rw [e1, e2, t1, f1]
    dsimp only
    rw [if_neg (by simp [nodeTy])]
    rw [t0, hq]
    dsimp only
    rw [if_pos (by simp [nodeTy])]
    unfold deleteNearestColumnLayout
    rw [hlen, hdeep]
    simp [t0]
  unfold removeColumn
  rw [hlen]
  have s2 : q.length + 2 = (q.length + 1) + 1 := rfl
  rw [s2]
  unfold removeColumnLoop
  rw [t2, f2]
  dsimp only
  rw [if_neg (by simp [nodeTy, h1])]
  unfold removeColumnLoop
  rw [t1, f1]
  dsimp only
  rw [if_pos (by simp [nodeTy])]
  rw [t0, hq]
  dsimp only
  rw [if_neg (by simp [nodeTy, childCount])]
  rw [if_pos (by simp [childCount])]
  exact hrcl

/-- Witness for `removeColumn_single_column_removes_layout`: a paragraph
directly inside the only column — the whole layout is removed. -/
def directSingleColumnDoc : DNode :=
  .elem "doc" Attrs.default
    [.elem "columnLayout" { Attrs.default with columns := 1 }
      [.elem "column" Attrs.default
        [.elem "paragraph" Attrs.default [.text "x"]]]]

theorem removeColumn_single_column_removes_layout_witness :
    removeColumn directSingleColumnDoc ([0] ++ [0, 0])
      = some (deleteAt [0] directSingleColumnDoc) :=
  removeColumn_single_column_removes_layout directSingleColumnDoc [0]
    { Attrs.default with columns := 1 } Attrs.default
    [DNode.elem "paragraph" Attrs.default [DNode.text "x"]] 0
    "paragraph" Attrs.default [DNode.text "x"]
    (by decide) (by decide) (by decide) (by decide) (by decide)

end EditorPlugin

namespace EditorPlugin

/-! ## Drag-and-drop insertion (src/unnamed/part_003, DragDropManager)

A drop event's coordinates resolve (`posAtCoords` + `doc.resolve`) to a
document position; we embed the resolved position as the path of the node
the position falls inside (`resolvedPos.parent`) plus the offset within it.
`insertAtDropPosition` snaps a position whose parent is a block other than
the doc to `resolvedPos.after(resolvedPos.depth)` — the boundary right
after that parent — and `insertContent` inserts the payload's template
there. -/

/-- A resolved document position: the node it falls inside (`parentPath`)
and the child/character offset within it. -/
structure RPos where
  parentPath : List Nat
  offset : Nat
  deriving Repr, DecidableEq

/-- The typed drop payload `{ type, content?: { columns? } }`. -/
structure DragData where
  ty : String
  columns : Option Int := none
  deriving Repr, DecidableEq

/-- Every node type of this schema except text is a block node. -/
def isBlockTy (t : String) : Bool := t ≠ "text"

def emptyParagraph : DNode := .elem "paragraph" Attrs.default []

def columnTemplate : DNode := .elem "column" Attrs.default [emptyParagraph]

/-- The columnLayout template of `insertContent`: `columns` attribute plus
that many columns each holding one empty paragraph. -/
def columnLayoutTemplate (n : Int) : DNode :=
  .elem "columnLayout" { Attrs.default with columns := n }
    (List.replicate n.toNat columnTemplate)

def divBlockTemplate : DNode := .elem "divBlock" Attrs.default [emptyParagraph]

def tableHeaderCell : DNode := .elem "tableHeader" Attrs.default [emptyParagraph]

def tableBodyCell : DNode := .elem "tableCell" Attrs.default [emptyParagraph]

def tableTemplate : DNode :=
  .elem "table" Attrs.default
    [.elem "tableRow" Attrs.default [tableHeaderCell, tableHeaderCell, tableHeaderCell],
     .elem "tableRow" Attrs.default [tableBodyCell, tableBodyCell, tableBodyCell],
     .elem "tableRow" Attrs.default [tableBodyCell, tableBodyCell, tableBodyCell]]

/-- Insert a node at a child boundary: into the children of the node at
`parentPath`, before child index `offset`. -/
def insertChildAt (doc : DNode) (pos : RPos) (child : DNode) : DNode :=
  modifyNode
    (fun n => match n with
      | .elem t a cs => .elem t a (insertIdxAt child pos.offset cs)
      | .text s => .text s)
    pos.parentPath doc

/-- `insertContent(insertPos, dragData)` (part_003 lines 169-255): each
recognized type tag inserts its fixed template; `image` first needs the
out-of-band URL (`prompt`), aborting when absent; an unrecognized tag falls
through the switch with no change. -/
def insertContent (doc : DNode) (pos : RPos) (d : DragData)
    (promptUrl : Option String) : DNode :=
  match d.ty with
  | "divBlock" => insertChildAt doc pos divBlockTemplate
  | "columnLayout" =>
      let columns : Int := match d.columns with
        | some k => if k = 0 then 2 else k
        | none => 2
      insertChildAt doc pos (columnLayoutTemplate columns)
  | "table" => insertChildAt doc pos tableTemplate
  | "image" =>
      match promptUrl with
      | some _ => insertChildAt doc pos (.elem "image" Attrs.default [])
      | none => doc
  | "codeBlock" => insertChildAt doc pos (.elem "codeBlock" Attrs.default [])
  | "blockquote" => insertChildAt doc pos (.elem "blockquote" Attrs.default [emptyParagraph])
  | "horizontalRule" => insertChildAt doc pos (.elem "horizontalRule" Attrs.default [])
  | _ => doc

/-- `insertAtDropPosition` (part_003 lines 149-164): when the resolved
position's parent is a block other than the doc, the insertion position
snaps to the boundary right after that parent (`resolvedPos.after`), i.e.
to the next child slot of the grandparent. -/
def insertAtDropPosition (doc : DNode) (rp : RPos) (d : DragData)
    (promptUrl : Option String) : DNode :=
  let target : RPos :=
    match getNode rp.parentPath doc with
    | some parent =>
        if isBlockTy (nodeTy parent) ∧ nodeTy parent ≠ "doc" then
          match rp.parentPath.getLast? with
          | some last => ⟨rp.parentPath.dropLast, last + 1⟩
          | none => rp
        else rp
    | none => rp
  insertContent doc target d promptUrl

/-- `handleDrop` (part_003 lines 88-101): the drag data string is fetched
and `JSON.parse`d; an absent payload or a parse failure (the `catch`) ends
the handler before any insertion.  The embedding takes the parse outcome
directly: `none` covers both. -/
def handleDrop (doc : DNode) (rp : RPos) (outcome : Option DragData)
    (promptUrl : Option String) : DNode :=
  match outcome with
  | none => doc
  | some d => insertAtDropPosition doc rp d promptUrl

/-- The type tags `insertContent` recognizes. -/
def recognizedDropTypes : List String :=
  ["divBlock", "columnLayout", "table", "image", "codeBlock", "blockquote", "horizontalRule"]

end EditorPlugin

namespace EditorPlugin

/-! ## Theorems: drop insertion (C8) and malformed payloads (C10) -/

theorem insertIdxAt_getElem_lt (a : α) : ∀ (m k : Nat) (l : List α), k < m →
    m ≤ l.length → (insertIdxAt a m l)[k]? = l[k]?
  | 0, k, _, h, _ => by omega
  | m + 1, _, [], _, h2 => by simp at h2
  | m + 1, 0, x :: xs, _, _ => by simp [insertIdxAt]
  | m + 1, k + 1, x :: xs, h, h2 => by
      simpa [insertIdxAt] using insertIdxAt_getElem_lt a m k xs (by omega) (by simpa using h2)

theorem insertIdxAt_getElem_self (a : α) : ∀ (m : Nat) (l : List α), m ≤ l.length →
    (insertIdxAt a m l)[m]? = some a
  | 0, l, _ => by simp [insertIdxAt]
  | m + 1, [], h => by simp at h
  | m + 1, x :: xs, h => by
      simpa [insertIdxAt] using insertIdxAt_getElem_self a m xs (by simpa using h)

theorem insertIdxAt_getElem_gt (a : α) : ∀ (m k : Nat) (l : List α), m ≤ k →
    (insertIdxAt a m l)[k + 1]? = l[k]?
  | 0, k, l, _ => by simp [insertIdxAt]
  | m + 1, 0, l, h => by omega
  | m + 1, k + 1, [], _ => by simp [insertIdxAt]
  | m + 1, k + 1, x :: xs, h => by
      simpa [insertIdxAt] using insertIdxAt_getElem_gt a m k xs (by omega)

/-- C8: a drop whose resolved position falls inside a block (other than the
doc) inserts at the block's end boundary: the block under the pointer stays
at its path, intact and unsplit, siblings before it are untouched, siblings
after it shift by exactly one slot, and the inserted node — for a
columnLayout payload with columns = n ≥ 1 — is a ColumnLayout whose
`columns` attribute is n and whose children are exactly n columns, each one
empty paragraph. -/
theorem drop_inserts_sibling_after_block (doc : DNode) (q : List Nat) (i off : Nat)
    (tq : String) (aq : Attrs) (cq : List DNode)
    (tb : String) (ab : Attrs) (bs : List DNode)
    (hparent : getNode q doc = some (DNode.elem tq aq cq))
    (hblk : cq[i]? = some (DNode.elem tb ab bs))
    (hb1 : tb ≠ "text") (hb2 : tb ≠ "doc")
    (n : Int) (hn : 1 ≤ n) (res : DNode)
    (hres : insertAtDropPosition doc ⟨q ++ [i], off⟩ ⟨"columnLayout", some n⟩ none = res) :
    getNode (q ++ [i]) res = some (DNode.elem tb ab bs)
    ∧ getNode (q ++ [i + 1]) res = some (columnLayoutTemplate n)
    ∧ columnLayoutTemplate n
        = DNode.elem "columnLayout" { Attrs.default with columns := n }
            (List.replicate n.toNat columnTemplate)
    ∧ ((List.replicate n.toNat columnTemplate).length : Int) = n
    ∧ (∀ k, k ≤ i → getNode (q ++ [k]) res = getNode (q ++ [k]) doc)
    ∧ (∀ k, i < k → getNode (q ++ [k + 1]) res = getNode (q ++ [k]) doc) := by
  have hilen : i < cq.length := (List.getElem?_eq_some.mp hblk).1
  have hblkget : getNode (q ++ [i]) doc = some (DNode.elem tb ab bs) := by
    rw [getNode_append, hparent]
    simp [getNode, hblk]
  have hty : nodeTy (DNode.elem tb ab bs) = tb := rfl
  -- reduce insertAtDropPosition to the insertion at ⟨q, i+1⟩
  have hres' : res
      = modifyNode
          (fun m => match m with
            | DNode.elem t a cs => DNode.elem t a (insertIdxAt (columnLayoutTemplate n) (i + 1) cs)
            | DNode.text s => DNode.text s)
          q doc := by
    rw [← hres]
    unfold insertAtDropPosition
    rw [hblkget]
    dsimp only
    rw [if_pos (by constructor <;> simp [isBlockTy, nodeTy, hb1, hb2])]
    simp only [List.getLast?_concat, List.dropLast_concat]
    unfold insertContent
    dsimp only
    rw [if_neg (by omega)]
    rfl
  have hget : ∀ k, getNode (q ++ [k]) res
      = (insertIdxAt (columnLayoutTemplate n) (i + 1) cq)[k]? := by
    intro k
    rw [hres', getNode_append, getNode_modifyNode_self, hparent]
    simp [getNode]
  have hgetdoc : ∀ k, getNode (q ++ [k]) doc = cq[k]? := by
    intro k
    rw [getNode_append, hparent]
    simp [getNode]
  refine ⟨?_, ?_, rfl, ?_, ?_, ?_⟩
  · rw [hget i, insertIdxAt_getElem_lt _ _ _ _ (by omega) (by omega), hblk]
  · rw [hget (i + 1), insertIdxAt_getElem_self _ _ _ (by omega)]
  · rw [List.length_replicate]
    exact Int.toNat_of_nonneg (by omega)
  · intro k hk
    rw [hget k, hgetdoc k, insertIdxAt_getElem_lt _ _ _ _ (by omega) (by omega)]
  · intro k hk
    rw [hget (k + 1), hgetdoc k, insertIdxAt_getElem_gt _ _ _ _ (by omega)]

end EditorPlugin

namespace EditorPlugin

/-- A document holding a single paragraph, dropped onto. -/
def dropTargetDoc : DNode :=
  .elem "doc" Attrs.default [.elem "paragraph" Attrs.default [.text "hi"]]

/-- `dropTargetDoc` after a `{type: columnLayout, content: {columns: 3}}`
payload drops inside the paragraph's text: a 3-column layout right after
the paragraph, the paragraph intact. -/
def dropResultDoc : DNode :=
  .elem "doc" Attrs.default
    [.elem "paragraph" Attrs.default [.text "hi"],
     .elem "columnLayout" { Attrs.default with columns := 3 }
       [columnTemplate, columnTemplate, columnTemplate]]

/-- Witness for `drop_inserts_sibling_after_block`: the spec's scenario, a
3-column payload dropped inside a paragraph's text. -/
theorem drop_inserts_sibling_after_block_witness :
    getNode ([] ++ [0]) dropResultDoc
        = some (DNode.elem "paragraph" Attrs.default [DNode.text "hi"])
    ∧ getNode ([] ++ [0 + 1]) dropResultDoc = some (columnLayoutTemplate 3)
    ∧ columnLayoutTemplate 3
        = DNode.elem "columnLayout" { Attrs.default with columns := 3 }
            (List.replicate (3 : Int).toNat columnTemplate)
    ∧ ((List.replicate (3 : Int).toNat columnTemplate).length : Int) = 3
    ∧ (∀ k, k ≤ 0 → getNode ([] ++ [k]) dropResultDoc = getNode ([] ++ [k]) dropTargetDoc)
    ∧ (∀ k, 0 < k → getNode ([] ++ [k + 1]) dropResultDoc = getNode ([] ++ [k]) dropTargetDoc) :=
  drop_inserts_sibling_after_block dropTargetDoc [] 0 1 "doc" Attrs.default
    [DNode.elem "paragraph" Attrs.default [DNode.text "hi"]]
    "paragraph" Attrs.default [DNode.text "hi"]
    (by decide) (by decide) (by decide) (by decide) 3 (by decide)
    dropResultDoc (by decide)

/-- An unrecognized type tag falls through `insertContent`'s switch with no
change. -/
theorem insertContent_unknown_ty (doc : DNode) (pos : RPos) (u : Option String)
    (d : DragData) (hd : d.ty ∉ recognizedDropTypes) : insertContent doc pos d u = doc := by
  simp only [recognizedDropTypes, List.mem_cons, List.not_mem_nil, or_false, not_or] at hd
  obtain ⟨h1, h2, h3, h4, h5, h6, h7⟩ := hd
  unfold insertContent
  split <;> simp_all

/-- C10: a malformed drop payload never mutates the document: an absent or
unparseable drag-data string ends `handleDrop` before any insertion, and a
parsed payload whose type tag is not one of the recognized tags falls
through `insertContent` with no structural change. -/
theorem malformed_drop_is_noop (doc : DNode) (rp : RPos) (u : Option String) :
    handleDrop doc rp none u = doc
    ∧ ∀ d : DragData, d.ty ∉ recognizedDropTypes → handleDrop doc rp (some d) u = doc := by
  refine ⟨rfl, ?_⟩
  intro d hd
  unfold handleDrop insertAtDropPosition
  exact insertContent_unknown_ty doc _ u d hd

/-- Witness for `malformed_drop_is_noop`: a payload with type tag "bogus"
dropped on the one-paragraph document. -/
theorem malformed_drop_is_noop_witness :
    handleDrop dropTargetDoc ⟨[0], 1⟩ none none = dropTargetDoc
    ∧ (DragData.mk "bogus" none).ty ∉ recognizedDropTypes
    ∧ handleDrop dropTargetDoc ⟨[0], 1⟩ (some (DragData.mk "bogus" none)) none = dropTargetDoc :=
  ⟨(malformed_drop_is_noop dropTargetDoc ⟨[0], 1⟩ none).1,
   by decide,
   (malformed_drop_is_noop dropTargetDoc ⟨[0], 1⟩ none).2 (DragData.mk "bogus" none) (by decide)⟩

end EditorPlugin

namespace EditorPlugin

/-! ## Column resize transaction (C9)

The `mousemove` handler (src/src/utils/emailExport.ts lines 997-1041)
computes the clamped widths and writes them with
`tr.setNodeMarkup(columnPos, undefined, { width: ... })` — ProseMirror's
`setNodeMarkup` keeps the node's type and children but replaces the whole
attribute object, filling every attribute missing from the given object
with its schema default (null). -/

/-- `tr.setNodeMarkup(pos, undefined, attrs)`: type and children kept, the
attribute object replaced wholesale. -/
def setNodeMarkupAttrs (a : Attrs) : DNode → DNode
  | .elem t _ cs => .elem t a cs
  | .text s => .text s

/-- The resize plugin state captured on mousedown (lines 873-880). -/
structure ResizeState where
  dragging : Bool
  startX : ℚ
  columnPath : List Nat
  nextColumnPath : List Nat
  startLeft : ℚ
  startRight : ℚ
  layoutWidth : ℚ

/-- JS `x.toFixed(1)` for the values the handler produces (rounding to one
decimal place). -/
def toFixed1 (x : ℚ) : String :=
  let n : Int := round (x * 10)
  toString (Int.ediv n 10) ++ "." ++ toString (Int.emod n 10).natAbs

/-- The `mousemove` handler: convert the pointer delta to percent of the
layout width, clamp via `resizeMove`, and write each width back as a
percentage string with `setNodeMarkup` on the two captured columns.
`none` models the handler returning false without dispatching. -/
def resizeMousemove (doc : DNode) (st : ResizeState) (clientX : ℚ) : Option DNode :=
  if st.dragging then
    let deltaPercent := (clientX - st.startX) / st.layoutWidth * 100
    let w := resizeMove st.startLeft st.startRight deltaPercent
    let doc1 := modifyNode
      (setNodeMarkupAttrs { Attrs.default with width := some (toFixed1 w.1 ++ "%") })
      st.columnPath doc
    some (modifyNode
      (setNodeMarkupAttrs { Attrs.default with width := some (toFixed1 w.2 ++ "%") })
      st.nextColumnPath doc1)
  else none

/-- A 3-column layout whose first column carries a background color (set,
for example, through `setParentContainerStyle`) and whose third column
carries another. -/
def resizeDoc : DNode :=
  .elem "doc" Attrs.default
    [.elem "columnLayout" { Attrs.default with columns := 3 }
      [.elem "column" { Attrs.default with backgroundColor := some "#ff0000" }
        [.elem "paragraph" Attrs.default []],
       .elem "column" Attrs.default [.elem "paragraph" Attrs.default []],
       .elem "column" { Attrs.default with backgroundColor := some "#00ff00" }
        [.elem "paragraph" Attrs.default []]]]

/-- The drag over the first handle: captured widths 40%/30%, layout 100px
wide, pointer moved 10px right. -/
def resizeSt : ResizeState :=
  { dragging := true, startX := 0, columnPath := [0, 0], nextColumnPath := [0, 1],
    startLeft := 40, startRight := 30, layoutWidth := 100 }

/-- `resizeDoc` after one mousemove of the drag: both widths written — and
every other attribute of the two dragged columns reset to null. -/
def resizeDocAfter : DNode :=
  .elem "doc" Attrs.default
    [.elem "columnLayout" { Attrs.default with columns := 3 }
      [.elem "column" { Attrs.default with width := some "50.0%" }
        [.elem "paragraph" Attrs.default []],
       .elem "column" { Attrs.default with width := some "20.0%" }
        [.elem "paragraph" Attrs.default []],
       .elem "column" { Attrs.default with backgroundColor := some "#00ff00" }
        [.elem "paragraph" Attrs.default []]]]

/-- C9 evidence: on a pointer-move the handler writes the two widths as
percentage strings, leaves every other column untouched — but, because
`setNodeMarkup` replaces the whole attribute object with `{ width }`, the
dragged pair's other attributes (here the first column's backgroundColor)
are reset to null rather than retained, contradicting the claim (and the
merge convention the same codebase documents in `setParentContainerStyle`). -/
theorem resizeMousemove_wipes_sibling_attrs :
    (getNode [0, 0] resizeDoc).map (fun m => (nodeAttrs m).backgroundColor)
        = some (some "#ff0000")
    ∧ resizeMousemove resizeDoc resizeSt 10 = some resizeDocAfter
    ∧ (getNode [0, 0] resizeDocAfter).map (fun m => (nodeAttrs m).backgroundColor)
        = some none
    ∧ (getNode [0, 0] resizeDocAfter).map (fun m => (nodeAttrs m).width)
        = some (some "50.0%")
    ∧ (getNode [0, 1] resizeDocAfter).map (fun m => (nodeAttrs m).width)
        = some (some "20.0%")
    ∧ getNode [0, 2] resizeDocAfter = getNode [0, 2] resizeDoc := by
  refine ⟨by decide, ?_, by decide, by decide, by decide, by decide⟩
  have hw : resizeMove 40 30 ((10 - 0) / 100 * 100) = (50, 20) := by
    norm_num [resizeMove]
  have h1 : toFixed1 50 = "50.0" := by
    have hr : round ((50 : ℚ) * 10) = 500 := by norm_num
    simp only [toFixed1, hr]
    decide
  have h2 : toFixed1 20 = "20.0" := by
    have hr : round ((20 : ℚ) * 10) = 200 := by norm_num
    simp only [toFixed1, hr]
    decide
  show resizeMousemove resizeDoc resizeSt 10 = some resizeDocAfter
  unfold resizeMousemove resizeSt
  dsimp only
  rw [hw]
  dsimp only
  rw [h1, h2]
  decide

end EditorPlugin

namespace EditorPlugin

/-! ## Serialization round-trip (C3)

`toHTML` is ProseMirror's DOM serialization through each node's
`renderHTML` (Column / ColumnLayout in src/src/utils/emailExport.ts lines
639-673 and 725-747, DivBlock in src/unnamed/part_000 lines 66-87, and the
`blockStyleCSS` global attribute of BlockStyle for the types it is
configured with).  `fromHTML` is DOM parsing through each node's
`parseHTML` tag selector (discriminating on `data-type`) plus the injected
attribute parsers.

Two attribute channels exist.  (1) The inline style: `blockStyleCSS` /
`buildBlockStyleString` render it, and the BlockStyle global attributes
parse it back property by property — but `BlockStyle.configure({ types:
['paragraph', 'heading', 'divBlock', 'blockquote'] })` (src/unnamed/part_002
lines 44-46) gives this parsing channel only to those types.  (2) TipTap's
default attribute channel: an attribute declared `{ default: null }` with
no `renderHTML` is emitted by `getRenderedAttributes` as a same-name HTML
attribute carrying its value (null values are dropped by the DOM
serializer), and an attribute with no `parseHTML` is read back by the
injected fallback `fromString(element.getAttribute(name))`.  The fourteen
style attributes that Column, ColumnLayout and DivBlock declare themselves
use exactly this channel, so they survive a round-trip verbatim; the
BlockStyle global attributes all define `renderHTML` (returning `{}`), so
paragraph styles travel only through the inline style and are subject to
its zero-omission rules.

The DOM is embedded at the element level: tag, the marker attributes
`data-type` / `data-width` / `data-columns`, the same-name attribute list
of channel (2), and the inline style as the list of its CSS declarations
(the browser's CSSOM view, which also expands the `border-width` /
`border-radius` / `padding` shorthands the resolver writes into their
per-side longhand properties read back by `parseStyleValue`).  Verbatim
whitespace of the style string and CSS color re-serialization by the
browser are below this model's level of detail. -/

/-- A JS attribute value travelling through the DOM attribute channel:
`setAttribute` stringifies it and tiptap's `fromString` fallback re-types
it on parse (purely numeric attribute text becomes a number again), so for
the string and number values this schema stores the channel is
value-preserving.  (A color string whose text matches the numeric pattern
would be re-typed by `fromString`; the typed attribute records of this
embedding cannot hold such a value and the program never writes one.) -/
inductive AttrVal where
  | str (s : String)
  | num (n : Int)
  deriving Repr, DecidableEq

inductive HNode where
  | el (tag : String) (dataType : Option String) (dataWidth : Option String)
      (dataColumns : Option Int) (named : List (String × AttrVal))
      (style : List CssDecl) (children : List HNode)
  | txt (s : String)
  deriving Repr

/-- One optional string-valued attribute of the default rendering channel:
a singleton same-name attribute when non-null, nothing when null. -/
def strAttr (k : String) : Option String → List (String × AttrVal)
  | some s => [(k, AttrVal.str s)]
  | none => []

def numAttr (k : String) : Option Int → List (String × AttrVal)
  | some n => [(k, AttrVal.num n)]
  | none => []

/-- The same-name HTML attributes `getRenderedAttributes` emits for the
fourteen style attributes Column, ColumnLayout and DivBlock declare with
`{ default: null }` and no `renderHTML` (their `width` / `columns` have
`renderHTML: () => ({})` and travel as `data-width` / `data-columns`
instead). -/
def namedStyleAttrs (a : Attrs) : List (String × AttrVal) :=
  strAttr "backgroundColor" a.backgroundColor ++
    (numAttr "borderTopWidth" a.borderTopWidth ++
    (numAttr "borderRightWidth" a.borderRightWidth ++
    (numAttr "borderBottomWidth" a.borderBottomWidth ++
    (numAttr "borderLeftWidth" a.borderLeftWidth ++
    (strAttr "borderColor" a.borderColor ++
    (numAttr "borderTopLeftRadius" a.borderTopLeftRadius ++
    (numAttr "borderTopRightRadius" a.borderTopRightRadius ++
    (numAttr "borderBottomRightRadius" a.borderBottomRightRadius ++
    (numAttr "borderBottomLeftRadius" a.borderBottomLeftRadius ++
    (numAttr "paddingTop" a.paddingTop ++
    (numAttr "paddingRight" a.paddingRight ++
    (numAttr "paddingBottom" a.paddingBottom ++
      numAttr "paddingLeft" a.paddingLeft))))))))))))

mutual

/-- `renderHTML` of each node type, producing its DOM element: the
`data-*` markers and combined style as written by the source, plus the
same-name attributes of the default rendering channel for the three
container node types (a paragraph carries none — the BlockStyle global
attributes all define `renderHTML`).  Column's `data-width` and
`--column-width` are guarded by JS truthiness (`attrs.width ?`), so an
empty-string width is not emitted. -/
def renderNode : DNode → HNode
  | .text s => .txt s
  | .elem t a cs =>
      if t = "divBlock" then
        .el "div" (some "div-block") none none (namedStyleAttrs a)
          (buildBorderStyleDecls a) (renderList cs)
      else if t = "column" then
        .el "div" (some "column")
          (match a.width with
            | some w => if w = "" then none else some w
            | none => none)
          none (namedStyleAttrs a)
          ((match a.width with
            | some w => if w = "" then [] else [⟨"--column-width", CssVal.raw w⟩]
            | none => []) ++ buildBorderStyleDecls a)
          (renderList cs)
      else if t = "columnLayout" then
        .el "div" (some "column-layout") none (some a.columns) (namedStyleAttrs a)
          (buildBorderStyleDecls a) (renderList cs)
      else
        .el "p" none none none [] (buildBorderStyleDecls a) (renderList cs)

def renderList : List DNode → List HNode
  | [] => []
  | c :: cs => renderNode c :: renderList cs

end

/-- CSSOM property lookup on the parsed inline style. -/
def cssFind (st : List CssDecl) (p : String) : Option CssVal :=
  (st.find? (fun d => d.prop == p)).map (·.val)

/-- `element.style.X || null` for a color-valued property. -/
def cssColor (st : List CssDecl) (p : String) : Option String :=
  match cssFind st p with
  | some (.raw s) => if s = "" then none else some s
  | _ => none

/-- `parseStyleValue(element.style.X)` for the k-th component of a
four-value shorthand (CSSOM expands the shorthand; parseStyleValue strips
the px suffix). -/
def cssQuad (st : List CssDecl) (p : String) (k : Nat) : Option Int :=
  match cssFind st p with
  | some (.quad x1 x2 x3 x4) => some ([x1, x2, x3, x4].getD k 0)
  | _ => none

/-- The attribute record produced by the injected `parseHTML` functions of
the BlockStyle global attributes (BlockStyle.ts lines 140-230). -/
def parseStyleAttrs (st : List CssDecl) : Attrs :=
  { width := none, columns := 2,
    backgroundColor := cssColor st "background-color",
    borderTopWidth := cssQuad st "border-width" 0,
    borderRightWidth := cssQuad st "border-width" 1,
    borderBottomWidth := cssQuad st "border-width" 2,
    borderLeftWidth := cssQuad st "border-width" 3,
    borderColor := cssColor st "border-color",
    borderTopLeftRadius := cssQuad st "border-radius" 0,
    borderTopRightRadius := cssQuad st "border-radius" 1,
    borderBottomRightRadius := cssQuad st "border-radius" 2,
    borderBottomLeftRadius := cssQuad st "border-radius" 3,
    paddingTop := cssQuad st "padding" 0,
    paddingRight := cssQuad st "padding" 1,
    paddingBottom := cssQuad st "padding" 2,
    paddingLeft := cssQuad st "padding" 3 }

/-- `element.getAttribute(k)` on the rendered attribute set (HTML
attribute names are case-insensitive; names are used consistently here). -/
def namedLookup (l : List (String × AttrVal)) (k : String) : Option AttrVal :=
  (l.find? (fun e => e.1 == k)).map (fun e => e.2)

/-- tiptap's injected fallback `fromString(element.getAttribute(k))` where
the stored value is a string (null when the attribute is absent). -/
def namedStr (l : List (String × AttrVal)) (k : String) : Option String :=
  match namedLookup l k with
  | some (.str s) => some s
  | _ => none

/-- The same fallback where the stored value is a number: `fromString`
turns the attribute text back into the number. -/
def namedNum (l : List (String × AttrVal)) (k : String) : Option Int :=
  match namedLookup l k with
  | some (.num n) => some n
  | _ => none

/-- The attribute record the injected `getAttrs` builds when every style
attribute comes from the `fromString(getAttribute(name))` fallback — the
Column / ColumnLayout case: their fourteen style attributes declare
neither `parseHTML` nor `renderHTML`. -/
def attrsFromNamed (l : List (String × AttrVal)) : Attrs :=
  { width := none, columns := 2,
    backgroundColor := namedStr l "backgroundColor",
    borderTopWidth := namedNum l "borderTopWidth",
    borderRightWidth := namedNum l "borderRightWidth",
    borderBottomWidth := namedNum l "borderBottomWidth",
    borderLeftWidth := namedNum l "borderLeftWidth",
    borderColor := namedStr l "borderColor",
    borderTopLeftRadius := namedNum l "borderTopLeftRadius",
    borderTopRightRadius := namedNum l "borderTopRightRadius",
    borderBottomRightRadius := namedNum l "borderBottomRightRadius",
    borderBottomLeftRadius := namedNum l "borderBottomLeftRadius",
    paddingTop := namedNum l "paddingTop",
    paddingRight := namedNum l "paddingRight",
    paddingBottom := namedNum l "paddingBottom",
    paddingLeft := namedNum l "paddingLeft" }

/-- The fold `{ ...items, [item.name]: value }` of the injected `getAttrs`:
a later non-null channel value overrides the earlier channel's. -/
def overrideVal {α : Type} (late early : Option α) : Option α :=
  match late with
  | some v => some v
  | none => early

/-- DivBlock's merged attribute parse: the BlockStyle global attributes
(parsed from the inline style) are collected first, DivBlock's own
declarations (the `getAttribute` fallback) second, and a later non-null
value overrides an earlier one.  Whenever both channels produce a value
they agree, so the collection order is immaterial to the result. -/
def overlayNamed (base : Attrs) (l : List (String × AttrVal)) : Attrs :=
  { width := base.width, columns := base.columns,
    backgroundColor := overrideVal (namedStr l "backgroundColor") base.backgroundColor,
    borderTopWidth := overrideVal (namedNum l "borderTopWidth") base.borderTopWidth,
    borderRightWidth := overrideVal (namedNum l "borderRightWidth") base.borderRightWidth,
    borderBottomWidth := overrideVal (namedNum l "borderBottomWidth") base.borderBottomWidth,
    borderLeftWidth := overrideVal (namedNum l "borderLeftWidth") base.borderLeftWidth,
    borderColor := overrideVal (namedStr l "borderColor") base.borderColor,
    borderTopLeftRadius := overrideVal (namedNum l "borderTopLeftRadius") base.borderTopLeftRadius,
    borderTopRightRadius := overrideVal (namedNum l "borderTopRightRadius") base.borderTopRightRadius,
    borderBottomRightRadius := overrideVal (namedNum l "borderBottomRightRadius") base.borderBottomRightRadius,
    borderBottomLeftRadius := overrideVal (namedNum l "borderBottomLeftRadius") base.borderBottomLeftRadius,
    paddingTop := overrideVal (namedNum l "paddingTop") base.paddingTop,
    paddingRight := overrideVal (namedNum l "paddingRight") base.paddingRight,
    paddingBottom := overrideVal (namedNum l "paddingBottom") base.paddingBottom,
    paddingLeft := overrideVal (namedNum l "paddingLeft") base.paddingLeft }

mutual

/-- DOM parsing: each parse rule matches on the tag and the `data-type`
marker, then the injected `getAttrs` reconstructs the attributes — the
style-parsing global attributes for the BlockStyle-configured types
(paragraph, divBlock), the `fromString(getAttribute(name))` fallback for
the fourteen style attributes Column, ColumnLayout and DivBlock declare
themselves, `data-width` for Column and `data-columns` (defaulting to 2)
for ColumnLayout. -/
def parseNode : HNode → Option DNode
  | .txt s => some (.text s)
  | .el tag dt dw dc nm st kids =>
      if tag = "div" ∧ dt = some "div-block" then
        some (.elem "divBlock" (overlayNamed (parseStyleAttrs st) nm) (parseList kids))
      else if tag = "div" ∧ dt = some "column" then
        some (.elem "column" { attrsFromNamed nm with width := dw } (parseList kids))
      else if tag = "div" ∧ dt = some "column-layout" then
        some (.elem "columnLayout" { attrsFromNamed nm with columns := dc.getD 2 }
          (parseList kids))
      else if tag = "p" then
        some (.elem "paragraph" (parseStyleAttrs st) (parseList kids))
      else none

def parseList : List HNode → List DNode
  | [] => []
  | k :: ks =>
      match parseNode k with
      | some n => n :: parseList ks
      | none => parseList ks

end

/-- `toHTML(document)`: the serialized children of the doc node. -/
def toHTML (d : DNode) : List HNode :=
  match d with
  | .elem _ _ cs => renderList cs
  | .text s => [.txt s]

/-- `fromHTML(string)`: parse the body's elements back into a doc. -/
def fromHTML (ns : List HNode) : DNode :=
  .elem "doc" Attrs.default (parseList ns)

end EditorPlugin

namespace EditorPlugin

/-! ### Structural equivalence modulo the zero-omission rule (§4.1)

`normAttrs` closes an attribute record under the inline-style emission
rules: whole categories whose values are all zero are dropped (and
re-parse as null), categories that are emitted write the defaulted 0 for
absent sides (which re-parse as 0), the "transparent" background sentinel
and empty color strings are never emitted, and border-color is only
emitted together with the border category. -/

def normColorBg : Option String → Option String
  | some s => if s = "" ∨ s = "transparent" then none else some s
  | none => none

def normColorPlain : Option String → Option String
  | some s => if s = "" then none else some s
  | none => none

/-- Close an attribute record under the §4.1 emission rules. -/
def normAttrs (a : Attrs) : Attrs :=
  let bt := a.borderTopWidth.getD 0
  let br := a.borderRightWidth.getD 0
  let bb := a.borderBottomWidth.getD 0
  let bl := a.borderLeftWidth.getD 0
  let rtl := a.borderTopLeftRadius.getD 0
  let rtr := a.borderTopRightRadius.getD 0
  let rbr := a.borderBottomRightRadius.getD 0
  let rbl := a.borderBottomLeftRadius.getD 0
  let pt := a.paddingTop.getD 0
  let pr := a.paddingRight.getD 0
  let pb := a.paddingBottom.getD 0
  let pl := a.paddingLeft.getD 0
  { width := a.width, columns := a.columns,
    backgroundColor := normColorBg a.backgroundColor,
    borderTopWidth := if bt ≠ 0 ∨ br ≠ 0 ∨ bb ≠ 0 ∨ bl ≠ 0 then some bt else none,
    borderRightWidth := if bt ≠ 0 ∨ br ≠ 0 ∨ bb ≠ 0 ∨ bl ≠ 0 then some br else none,
    borderBottomWidth := if bt ≠ 0 ∨ br ≠ 0 ∨ bb ≠ 0 ∨ bl ≠ 0 then some bb else none,
    borderLeftWidth := if bt ≠ 0 ∨ br ≠ 0 ∨ bb ≠ 0 ∨ bl ≠ 0 then some bl else none,
    borderColor := if bt ≠ 0 ∨ br ≠ 0 ∨ bb ≠ 0 ∨ bl ≠ 0
      then normColorPlain a.borderColor else none,
    borderTopLeftRadius := if rtl ≠ 0 ∨ rtr ≠ 0 ∨ rbr ≠ 0 ∨ rbl ≠ 0 then some rtl else none,
    borderTopRightRadius := if rtl ≠ 0 ∨ rtr ≠ 0 ∨ rbr ≠ 0 ∨ rbl ≠ 0 then some rtr else none,
    borderBottomRightRadius := if rtl ≠ 0 ∨ rtr ≠ 0 ∨ rbr ≠ 0 ∨ rbl ≠ 0 then some rbr else none,
    borderBottomLeftRadius := if rtl ≠ 0 ∨ rtr ≠ 0 ∨ rbr ≠ 0 ∨ rbl ≠ 0 then some rbl else none,
    paddingTop := if pt ≠ 0 ∨ pr ≠ 0 ∨ pb ≠ 0 ∨ pl ≠ 0 then some pt else none,
    paddingRight := if pt ≠ 0 ∨ pr ≠ 0 ∨ pb ≠ 0 ∨ pl ≠ 0 then some pr else none,
    paddingBottom := if pt ≠ 0 ∨ pr ≠ 0 ∨ pb ≠ 0 ∨ pl ≠ 0 then some pb else none,
    paddingLeft := if pt ≠ 0 ∨ pr ≠ 0 ∨ pb ≠ 0 ∨ pl ≠ 0 then some pl else none }

mutual

def normTree : DNode → DNode
  | .elem t a cs => .elem t (normAttrs a) (normTreeList cs)
  | .text s => .text s

def normTreeList : List DNode → List DNode
  | [] => []
  | c :: cs => normTree c :: normTreeList cs

end

/-- The claim's structural equivalence read as an equivalence relation:
equality after closing both sides under the zero-omission rule. -/
abbrev structEquiv (x y : DNode) : Prop := normTree x = normTree y

/-- What a container's attribute record becomes after one round-trip:
every non-null attribute survives verbatim through the same-name attribute
channel, and a null side of an emitted border-width / radius / padding
category is filled with the 0 the style shorthand wrote for it (DivBlock
only — Column and ColumnLayout have no style-parsing channel at all, so
their records survive exactly). -/
def fillAttrs (a : Attrs) : Attrs :=
  let bt := a.borderTopWidth.getD 0
  let br := a.borderRightWidth.getD 0
  let bb := a.borderBottomWidth.getD 0
  let bl := a.borderLeftWidth.getD 0
  let rtl := a.borderTopLeftRadius.getD 0
  let rtr := a.borderTopRightRadius.getD 0
  let rbr := a.borderBottomRightRadius.getD 0
  let rbl := a.borderBottomLeftRadius.getD 0
  let pt := a.paddingTop.getD 0
  let pr := a.paddingRight.getD 0
  let pb := a.paddingBottom.getD 0
  let pl := a.paddingLeft.getD 0
  { width := a.width, columns := a.columns,
    backgroundColor := a.backgroundColor,
    borderTopWidth := if bt ≠ 0 ∨ br ≠ 0 ∨ bb ≠ 0 ∨ bl ≠ 0 then some bt else a.borderTopWidth,
    borderRightWidth := if bt ≠ 0 ∨ br ≠ 0 ∨ bb ≠ 0 ∨ bl ≠ 0 then some br else a.borderRightWidth,
    borderBottomWidth := if bt ≠ 0 ∨ br ≠ 0 ∨ bb ≠ 0 ∨ bl ≠ 0 then some bb else a.borderBottomWidth,
    borderLeftWidth := if bt ≠ 0 ∨ br ≠ 0 ∨ bb ≠ 0 ∨ bl ≠ 0 then some bl else a.borderLeftWidth,
    borderColor := a.borderColor,
    borderTopLeftRadius := if rtl ≠ 0 ∨ rtr ≠ 0 ∨ rbr ≠ 0 ∨ rbl ≠ 0 then some rtl else a.borderTopLeftRadius,
    borderTopRightRadius := if rtl ≠ 0 ∨ rtr ≠ 0 ∨ rbr ≠ 0 ∨ rbl ≠ 0 then some rtr else a.borderTopRightRadius,
    borderBottomRightRadius := if rtl ≠ 0 ∨ rtr ≠ 0 ∨ rbr ≠ 0 ∨ rbl ≠ 0 then some rbr else a.borderBottomRightRadius,
    borderBottomLeftRadius := if rtl ≠ 0 ∨ rtr ≠ 0 ∨ rbr ≠ 0 ∨ rbl ≠ 0 then some rbl else a.borderBottomLeftRadius,
    paddingTop := if pt ≠ 0 ∨ pr ≠ 0 ∨ pb ≠ 0 ∨ pl ≠ 0 then some pt else a.paddingTop,
    paddingRight := if pt ≠ 0 ∨ pr ≠ 0 ∨ pb ≠ 0 ∨ pl ≠ 0 then some pr else a.paddingRight,
    paddingBottom := if pt ≠ 0 ∨ pr ≠ 0 ∨ pb ≠ 0 ∨ pl ≠ 0 then some pb else a.paddingBottom,
    paddingLeft := if pt ≠ 0 ∨ pr ≠ 0 ∨ pb ≠ 0 ∨ pl ≠ 0 then some pl else a.paddingLeft }

mutual

/-- The exact result of one round-trip, node type by node type: container
attributes survive (DivBlock nulls in an emitted category filled with 0,
Column / ColumnLayout verbatim), paragraph attributes are closed under the
§4.1 emission rules. -/
def roundNormTree : DNode → DNode
  | .elem t a cs =>
      .elem t
        (if t = "divBlock" then fillAttrs a
         else if t = "column" ∨ t = "columnLayout" ∨ t = "doc" then a
         else normAttrs a)
        (roundNormList cs)
  | .text s => .text s

def roundNormList : List DNode → List DNode
  | [] => []
  | c :: cs => roundNormTree c :: roundNormList cs

end

/-! ### Schema well-formedness of documents built from this spec's node
types. -/

mutual

/-- A well-formed member of the "block" group: paragraph (text content),
divBlock (block content), or columnLayout (one-or-more columns); `width`
only ever lives on columns and `columns` keeps its materialised default 2
outside columnLayout nodes. -/
def wfBlock : DNode → Bool
  | .elem t a cs =>
      if t = "paragraph" then
        decide (a.width = none) && decide (a.columns = 2) && textsOnly cs
      else if t = "divBlock" then
        decide (a.width = none) && decide (a.columns = 2) && wfBlocks cs
      else if t = "columnLayout" then
        decide (a.width = none) && !cs.isEmpty && wfColumns cs
      else false
  | .text _ => false

/-- A well-formed column.  Its width, when set, is one of the percentage
strings the program writes (`toFixed(1) + '%'` or a template default),
never the empty string — which matters because `attrs.width ?` is a JS
truthiness test, so an empty-string width would not be serialized. -/
def wfColumn : DNode → Bool
  | .elem t a cs =>
      if t = "column" then
        decide (a.columns = 2) && decide (a.width ≠ some "") && wfBlocks cs
      else false
  | .text _ => false

def wfBlocks : List DNode → Bool
  | [] => true
  | c :: cs => wfBlock c && wfBlocks cs

def wfColumns : List DNode → Bool
  | [] => true
  | c :: cs => wfColumn c && wfColumns cs

def textsOnly : List DNode → Bool
  | [] => true
  | .text _ :: cs => textsOnly cs
  | _ => false

end

/-- A well-formed document: a doc node with default attributes holding
well-formed blocks. -/
def wfDoc : DNode → Bool
  | .elem t a cs => if t = "doc" then decide (a = Attrs.default) && wfBlocks cs else false
  | .text _ => false

/-! ### The claim's equivalence, read literally

Following the claim's words — "same node types and the same values for
every non-zero/non-null attribute" — an attribute is excused only when its
value is zero or null; any other value must be preserved on the nose.
These definitions follow the claim's wording (not the source) and exist to
state the counterexample against it. -/

def specStrPreserved (x y : Option String) : Bool := x == none || x == y

def specIntPreserved (x y : Option Int) : Bool := x == none || x == some 0 || x == y

/-- Every non-zero/non-null attribute of `a` keeps its value in `b`. -/
def specAttrsPreserved (a b : Attrs) : Bool :=
  specStrPreserved a.width b.width && a.columns == b.columns
    && specStrPreserved a.backgroundColor b.backgroundColor
    && specIntPreserved a.borderTopWidth b.borderTopWidth
    && specIntPreserved a.borderRightWidth b.borderRightWidth
    && specIntPreserved a.borderBottomWidth b.borderBottomWidth
    && specIntPreserved a.borderLeftWidth b.borderLeftWidth
    && specStrPreserved a.borderColor b.borderColor
    && specIntPreserved a.borderTopLeftRadius b.borderTopLeftRadius
    && specIntPreserved a.borderTopRightRadius b.borderTopRightRadius
    && specIntPreserved a.borderBottomRightRadius b.borderBottomRightRadius
    && specIntPreserved a.borderBottomLeftRadius b.borderBottomLeftRadius
    && specIntPreserved a.paddingTop b.paddingTop
    && specIntPreserved a.paddingRight b.paddingRight
    && specIntPreserved a.paddingBottom b.paddingBottom
    && specIntPreserved a.paddingLeft b.paddingLeft

mutual

/-- The claim's structural equivalence, literally: same tree of node
types, and in each node every non-zero/non-null attribute of either side
keeps its value on the other. -/
def specEquivNode : DNode → DNode → Bool
  | .elem t a cs, .elem u b ds =>
      t == u && specAttrsPreserved a b && specAttrsPreserved b a && specEquivList cs ds
  | .text s, .text r => s == r
  | _, _ => false

def specEquivList : List DNode → List DNode → Bool
  | [], [] => true
  | c :: cs, e :: es => specEquivNode c e && specEquivList cs es
  | _, _ => false

end

end EditorPlugin

namespace EditorPlugin

/-- `cssFind` distributes over list append. -/
theorem cssFind_append (A B : List CssDecl) (p : String) :
    cssFind (A ++ B) p
      = match cssFind A p with
        | some v => some v
        | none => cssFind B p := by
  induction A with
  | nil => simp [cssFind]
  | cons d A ih =>
      by_cases h : d.prop == p
      · simp [cssFind, List.find?, h]
      · simp only [List.cons_append, cssFind, List.find?, h]
        simpa [cssFind] using ih

theorem cssFind_spec_bg (a : Attrs) :
    cssFind (specResolverDecls a) "background-color"
      = (if truthyStr a.backgroundColor ∧ a.backgroundColor ≠ some "transparent"
          then some (CssVal.raw (a.backgroundColor.getD "")) else none) := by
  unfold specResolverDecls
  rw [cssFind_append, cssFind_append, cssFind_append]
  split_ifs <;> simp_all [cssFind, List.find?]

theorem cssFind_spec_borderWidth (a : Attrs) :
    cssFind (specResolverDecls a) "border-width"
      = (if a.borderTopWidth.getD 0 ≠ 0 ∨ a.borderRightWidth.getD 0 ≠ 0
          ∨ a.borderBottomWidth.getD 0 ≠ 0 ∨ a.borderLeftWidth.getD 0 ≠ 0
         then some (CssVal.quad (a.borderTopWidth.getD 0) (a.borderRightWidth.getD 0)
            (a.borderBottomWidth.getD 0) (a.borderLeftWidth.getD 0))
         else none) := by
  unfold specResolverDecls
  rw [cssFind_append, cssFind_append, cssFind_append]
  split_ifs <;> simp_all [cssFind, List.find?]

theorem cssFind_spec_borderColor (a : Attrs) :
    cssFind (specResolverDecls a) "border-color"
      = (if (a.borderTopWidth.getD 0 ≠ 0 ∨ a.borderRightWidth.getD 0 ≠ 0
            ∨ a.borderBottomWidth.getD 0 ≠ 0 ∨ a.borderLeftWidth.getD 0 ≠ 0)
           ∧ truthyStr a.borderColor
         then some (CssVal.raw (a.borderColor.getD "")) else none) := by
  unfold specResolverDecls
  rw [cssFind_append, cssFind_append, cssFind_append]
  split_ifs <;> simp_all [cssFind, List.find?]

theorem cssFind_spec_radius (a : Attrs) :
    cssFind (specResolverDecls a) "border-radius"
      = (if a.borderTopLeftRadius.getD 0 ≠ 0 ∨ a.borderTopRightRadius.getD 0 ≠ 0
          ∨ a.borderBottomRightRadius.getD 0 ≠ 0 ∨ a.borderBottomLeftRadius.getD 0 ≠ 0
         then some (CssVal.quad (a.borderTopLeftRadius.getD 0) (a.borderTopRightRadius.getD 0)
            (a.borderBottomRightRadius.getD 0) (a.borderBottomLeftRadius.getD 0))
         else none) := by
  unfold specResolverDecls
  rw [cssFind_append, cssFind_append, cssFind_append]
  split_ifs <;> simp_all [cssFind, List.find?]

theorem cssFind_spec_padding (a : Attrs) :
    cssFind (specResolverDecls a) "padding"
      = (if a.paddingTop.getD 0 ≠ 0 ∨ a.paddingRight.getD 0 ≠ 0
          ∨ a.paddingBottom.getD 0 ≠ 0 ∨ a.paddingLeft.getD 0 ≠ 0
         then some (CssVal.quad (a.paddingTop.getD 0) (a.paddingRight.getD 0)
            (a.paddingBottom.getD 0) (a.paddingLeft.getD 0))
         else none) := by
  unfold specResolverDecls
  rw [cssFind_append, cssFind_append, cssFind_append]
  split_ifs <;> simp_all [cssFind, List.find?]

end EditorPlugin

namespace EditorPlugin

theorem cssColor_bg (a : Attrs) :
    cssColor (specResolverDecls a) "background-color" = normColorBg a.backgroundColor := by
  unfold cssColor
  rw [cssFind_spec_bg]
  cases habg : a.backgroundColor with
  | none => simp [truthyStr, normColorBg]
  | some s =>
      by_cases h1 : s = ""
      · simp [truthyStr, normColorBg, h1]
      · by_cases h2 : s = "transparent"
        · simp [truthyStr, normColorBg, h1, h2]
        · simp [truthyStr, normColorBg, h1, h2]

theorem cssColor_borderColor (a : Attrs) :
    cssColor (specResolverDecls a) "border-color"
      = (if a.borderTopWidth.getD 0 ≠ 0 ∨ a.borderRightWidth.getD 0 ≠ 0
          ∨ a.borderBottomWidth.getD 0 ≠ 0 ∨ a.borderLeftWidth.getD 0 ≠ 0
         then normColorPlain a.borderColor else none) := by
  unfold cssColor
  rw [cssFind_spec_borderColor]
  by_cases hW : a.borderTopWidth.getD 0 ≠ 0 ∨ a.borderRightWidth.getD 0 ≠ 0
      ∨ a.borderBottomWidth.getD 0 ≠ 0 ∨ a.borderLeftWidth.getD 0 ≠ 0
  · cases hbc : a.borderColor with
    | none => simp [truthyStr, normColorPlain, hW]
    | some s =>
        by_cases h1 : s = ""
        · simp [truthyStr, normColorPlain, hW, h1]
        · simp [truthyStr, normColorPlain, hW, h1]
  · simp [hW]

/-- What the injected style-attribute parsers recover from a rendered style
is exactly the §4.1 closure of the original attribute bag. -/
theorem parseStyleAttrs_build (a : Attrs) :
    parseStyleAttrs (buildBorderStyleDecls a)
      = { normAttrs a with width := none, columns := 2 } := by
  rw [buildBorderStyleDecls_eq_spec]
  simp only [parseStyleAttrs, normAttrs]
  simp only [Attrs.mk.injEq]
  refine ⟨trivial, trivial, cssColor_bg a, ?_, ?_, ?_, ?_, cssColor_borderColor a,
    ?_, ?_, ?_, ?_, ?_, ?_, ?_, ?_⟩ <;>
    first
      | (by_cases hW : a.borderTopWidth.getD 0 ≠ 0 ∨ a.borderRightWidth.getD 0 ≠ 0
            ∨ a.borderBottomWidth.getD 0 ≠ 0 ∨ a.borderLeftWidth.getD 0 ≠ 0
         · simp [cssQuad, cssFind_spec_borderWidth, hW]
         · simp [cssQuad, cssFind_spec_borderWidth, hW])
      | skip
  all_goals
    first
      | (by_cases hR : a.borderTopLeftRadius.getD 0 ≠ 0 ∨ a.borderTopRightRadius.getD 0 ≠ 0
            ∨ a.borderBottomRightRadius.getD 0 ≠ 0 ∨ a.borderBottomLeftRadius.getD 0 ≠ 0
         · simp [cssQuad, cssFind_spec_radius, hR]
         · simp [cssQuad, cssFind_spec_radius, hR])
      | (by_cases hP : a.paddingTop.getD 0 ≠ 0 ∨ a.paddingRight.getD 0 ≠ 0
            ∨ a.paddingBottom.getD 0 ≠ 0 ∨ a.paddingLeft.getD 0 ≠ 0
         · simp [cssQuad, cssFind_spec_padding, hP]
         · simp [cssQuad, cssFind_spec_padding, hP])

end EditorPlugin

namespace EditorPlugin

/-! ### Reading the same-name attribute channel back -/

theorem namedLookup_str_self (k : String) (x : Option String)
    (rest : List (String × AttrVal)) :
    namedLookup (strAttr k x ++ rest) k
      = match x with
        | some s => some (AttrVal.str s)
        | none => namedLookup rest k := by
  cases x <;> simp [strAttr, namedLookup, List.find?]

theorem namedLookup_str_ne (k q : String) (x : Option String)
    (rest : List (String × AttrVal)) (h : (k == q) = false) :
    namedLookup (strAttr k x ++ rest) q = namedLookup rest q := by
  cases x <;> simp [strAttr, namedLookup, List.find?, h]

theorem namedLookup_num_self (k : String) (x : Option Int)
    (rest : List (String × AttrVal)) :
    namedLookup (numAttr k x ++ rest) k
      = match x with
        | some n => some (AttrVal.num n)
        | none => namedLookup rest k := by
  cases x <;> simp [numAttr, namedLookup, List.find?]

theorem namedLookup_num_ne (k q : String) (x : Option Int)
    (rest : List (String × AttrVal)) (h : (k == q) = false) :
    namedLookup (numAttr k x ++ rest) q = namedLookup rest q := by
  cases x <;> simp [numAttr, namedLookup, List.find?, h]

theorem namedLookup_num_bare_self (k : String) (x : Option Int) :
    namedLookup (numAttr k x) k
      = match x with
        | some n => some (AttrVal.num n)
        | none => none := by
  cases x <;> simp [numAttr, namedLookup, List.find?]

theorem namedLookup_num_bare_ne (k q : String) (x : Option Int)
    (h : (k == q) = false) :
    namedLookup (numAttr k x) q = none := by
  cases x <;> simp [numAttr, namedLookup, List.find?, h]

theorem namedStr_bg (a : Attrs) :
    namedStr (namedStyleAttrs a) "backgroundColor" = a.backgroundColor := by
  unfold namedStr namedStyleAttrs
  rw [namedLookup_str_self]
  cases a.backgroundColor with
  | some s => rfl
  | none =>
      rw [namedLookup_num_ne _ _ _ _ (by decide), namedLookup_num_ne _ _ _ _ (by decide),
        namedLookup_num_ne _ _ _ _ (by decide), namedLookup_num_ne _ _ _ _ (by decide),
        namedLookup_str_ne _ _ _ _ (by decide), namedLookup_num_ne _ _ _ _ (by decide),
        namedLookup_num_ne _ _ _ _ (by decide), namedLookup_num_ne _ _ _ _ (by decide),
        namedLookup_num_ne _ _ _ _ (by decide), namedLookup_num_ne _ _ _ _ (by decide),
        namedLookup_num_ne _ _ _ _ (by decide), namedLookup_num_ne _ _ _ _ (by decide),
        namedLookup_num_bare_ne _ _ _ (by decide)]

theorem namedNum_btw (a : Attrs) :
    namedNum (namedStyleAttrs a) "borderTopWidth" = a.borderTopWidth := by
  unfold namedNum namedStyleAttrs
  rw [namedLookup_str_ne _ _ _ _ (by decide), namedLookup_num_self]
  cases a.borderTopWidth with
  | some n => rfl
  | none =>
      rw [namedLookup_num_ne _ _ _ _ (by decide), namedLookup_num_ne _ _ _ _ (by decide),
        namedLookup_num_ne _ _ _ _ (by decide), namedLookup_str_ne _ _ _ _ (by decide),
        namedLookup_num_ne _ _ _ _ (by decide), namedLookup_num_ne _ _ _ _ (by decide),
        namedLookup_num_ne _ _ _ _ (by decide), namedLookup_num_ne _ _ _ _ (by decide),
        namedLookup_num_ne _ _ _ _ (by decide), namedLookup_num_ne _ _ _ _ (by decide),
        namedLookup_num_ne _ _ _ _ (by decide), namedLookup_num_bare_ne _ _ _ (by decide)]

theorem namedNum_brw (a : Attrs) :
    namedNum (namedStyleAttrs a) "borderRightWidth" = a.borderRightWidth := by
  unfold namedNum namedStyleAttrs
  rw [namedLookup_str_ne _ _ _ _ (by decide), namedLookup_num_ne _ _ _ _ (by decide),
    namedLookup_num_self]
  cases a.borderRightWidth with
  | some n => rfl
  | none =>
      rw [namedLookup_num_ne _ _ _ _ (by decide), namedLookup_num_ne _ _ _ _ (by decide),
        namedLookup_str_ne _ _ _ _ (by decide), namedLookup_num_ne _ _ _ _ (by decide),
        namedLookup_num_ne _ _ _ _ (by decide), namedLookup_num_ne _ _ _ _ (by decide),
        namedLookup_num_ne _ _ _ _ (by decide), namedLookup_num_ne _ _ _ _ (by decide),
        namedLookup_num_ne _ _ _ _ (by decide), namedLookup_num_ne _ _ _ _ (by decide),
        namedLookup_num_bare_ne _ _ _ (by decide)]

theorem namedNum_bbw (a : Attrs) :
    namedNum (namedStyleAttrs a) "borderBottomWidth" = a.borderBottomWidth := by
  unfold namedNum namedStyleAttrs
  rw [namedLookup_str_ne _ _ _ _ (by decide), namedLookup_num_ne _ _ _ _ (by decide),
    namedLookup_num_ne _ _ _ _ (by decide), namedLookup_num_self]
  cases a.borderBottomWidth with
  | some n => rfl
  | none =>
      rw [namedLookup_num_ne _ _ _ _ (by decide), namedLookup_str_ne _ _ _ _ (by decide),
        namedLookup_num_ne _ _ _ _ (by decide), namedLookup_num_ne _ _ _ _ (by decide),
        namedLookup_num_ne _ _ _ _ (by decide), namedLookup_num_ne _ _ _ _ (by decide),
        namedLookup_num_ne _ _ _ _ (by decide), namedLookup_num_ne _ _ _ _ (by decide),
        namedLookup_num_ne _ _ _ _ (by decide), namedLookup_num_bare_ne _ _ _ (by decide)]

theorem namedNum_blw (a : Attrs) :
    namedNum (namedStyleAttrs a) "borderLeftWidth" = a.borderLeftWidth := by
  unfold namedNum namedStyleAttrs
  rw [namedLookup_str_ne _ _ _ _ (by decide), namedLookup_num_ne _ _ _ _ (by decide),
    namedLookup_num_ne _ _ _ _ (by decide), namedLookup_num_ne _ _ _ _ (by decide),
    namedLookup_num_self]
  cases a.borderLeftWidth with
  | some n => rfl
  | none =>
      rw [namedLookup_str_ne _ _ _ _ (by decide), namedLookup_num_ne _ _ _ _ (by decide),
        namedLookup_num_ne _ _ _ _ (by decide), namedLookup_num_ne _ _ _ _ (by decide),
        namedLookup_num_ne _ _ _ _ (by decide), namedLookup_num_ne _ _ _ _ (by decide),
        namedLookup_num_ne _ _ _ _ (by decide), namedLookup_num_ne _ _ _ _ (by decide),
        namedLookup_num_bare_ne _ _ _ (by decide)]

theorem namedStr_bc (a : Attrs) :
    namedStr (namedStyleAttrs a) "borderColor" = a.borderColor := by
  unfold namedStr namedStyleAttrs
  rw [namedLookup_str_ne _ _ _ _ (by decide), namedLookup_num_ne _ _ _ _ (by decide),
    namedLookup_num_ne _ _ _ _ (by decide), namedLookup_num_ne _ _ _ _ (by decide),
    namedLookup_num_ne _ _ _ _ (by decide), namedLookup_str_self]
  cases a.borderColor with
  | some s => rfl
  | none =>
      rw [namedLookup_num_ne _ _ _ _ (by decide), namedLookup_num_ne _ _ _ _ (by decide),
        namedLookup_num_ne _ _ _ _ (by decide), namedLookup_num_ne _ _ _ _ (by decide),
        namedLookup_num_ne _ _ _ _ (by decide), namedLookup_num_ne _ _ _ _ (by decide),
        namedLookup_num_ne _ _ _ _ (by decide), namedLookup_num_bare_ne _ _ _ (by decide)]

theorem namedNum_rtl (a : Attrs) :
    namedNum (namedStyleAttrs a) "borderTopLeftRadius" = a.borderTopLeftRadius := by
  unfold namedNum namedStyleAttrs
  rw [namedLookup_str_ne _ _ _ _ (by decide), namedLookup_num_ne _ _ _ _ (by decide),
    namedLookup_num_ne _ _ _ _ (by decide), namedLookup_num_ne _ _ _ _ (by decide),
    namedLookup_num_ne _ _ _ _ (by decide), namedLookup_str_ne _ _ _ _ (by decide),
    namedLookup_num_self]
  cases a.borderTopLeftRadius with
  | some n => rfl
  | none =>
      rw [namedLookup_num_ne _ _ _ _ (by decide), namedLookup_num_ne _ _ _ _ (by decide),
        namedLookup_num_ne _ _ _ _ (by decide), namedLookup_num_ne _ _ _ _ (by decide),
        namedLookup_num_ne _ _ _ _ (by decide), namedLookup_num_ne _ _ _ _ (by decide),
        namedLookup_num_bare_ne _ _ _ (by decide)]

theorem namedNum_rtr (a : Attrs) :
    namedNum (namedStyleAttrs a) "borderTopRightRadius" = a.borderTopRightRadius := by
  unfold namedNum namedStyleAttrs
  rw [namedLookup_str_ne _ _ _ _ (by decide), namedLookup_num_ne _ _ _ _ (by decide),
    namedLookup_num_ne _ _ _ _ (by decide), namedLookup_num_ne _ _ _ _ (by decide),
    namedLookup_num_ne _ _ _ _ (by decide), namedLookup_str_ne _ _ _ _ (by decide),
    namedLookup_num_ne _ _ _ _ (by decide), namedLookup_num_self]
  cases a.borderTopRightRadius with
  | some n => rfl
  | none =>
      rw [namedLookup_num_ne _ _ _ _ (by decide), namedLookup_num_ne _ _ _ _ (by decide),
        namedLookup_num_ne _ _ _ _ (by decide), namedLookup_num_ne _ _ _ _ (by decide),
        namedLookup_num_ne _ _ _ _ (by decide), namedLookup_num_bare_ne _ _ _ (by decide)]

theorem namedNum_rbr (a : Attrs) :
    namedNum (namedStyleAttrs a) "borderBottomRightRadius" = a.borderBottomRightRadius := by
  unfold namedNum namedStyleAttrs
  rw [namedLookup_str_ne _ _ _ _ (by decide), namedLookup_num_ne _ _ _ _ (by decide),
    namedLookup_num_ne _ _ _ _ (by decide), namedLookup_num_ne _ _ _ _ (by decide),
    namedLookup_num_ne _ _ _ _ (by decide), namedLookup_str_ne _ _ _ _ (by decide),
    namedLookup_num_ne _ _ _ _ (by decide), namedLookup_num_ne _ _ _ _ (by decide),
    namedLookup_num_self]
  cases a.borderBottomRightRadius with
  | some n => rfl
  | none =>
      rw [namedLookup_num_ne _ _ _ _ (by decide), namedLookup_num_ne _ _ _ _ (by decide),
        namedLookup_num_ne _ _ _ _ (by decide), namedLookup_num_ne _ _ _ _ (by decide),
        namedLookup_num_bare_ne _ _ _ (by decide)]

theorem namedNum_rbl (a : Attrs) :
    namedNum (namedStyleAttrs a) "borderBottomLeftRadius" = a.borderBottomLeftRadius := by
  unfold namedNum namedStyleAttrs
  rw [namedLookup_str_ne _ _ _ _ (by decide), namedLookup_num_ne _ _ _ _ (by decide),
    namedLookup_num_ne _ _ _ _ (by decide), namedLookup_num_ne _ _ _ _ (by decide),
    namedLookup_num_ne _ _ _ _ (by decide), namedLookup_str_ne _ _ _ _ (by decide),
    namedLookup_num_ne _ _ _ _ (by decide), namedLookup_num_ne _ _ _ _ (by decide),
    namedLookup_num_ne _ _ _ _ (by decide), namedLookup_num_self]
  cases a.borderBottomLeftRadius with
  | some n => rfl
  | none =>
      rw [namedLookup_num_ne _ _ _ _ (by decide), namedLookup_num_ne _ _ _ _ (by decide),
        namedLookup_num_ne _ _ _ _ (by decide), namedLookup_num_bare_ne _ _ _ (by decide)]

theorem namedNum_ptop (a : Attrs) :
    namedNum (namedStyleAttrs a) "paddingTop" = a.paddingTop := by
  unfold namedNum namedStyleAttrs
  rw [namedLookup_str_ne _ _ _ _ (by decide), namedLookup_num_ne _ _ _ _ (by decide),
    namedLookup_num_ne _ _ _ _ (by decide), namedLookup_num_ne _ _ _ _ (by decide),
    namedLookup_num_ne _ _ _ _ (by decide), namedLookup_str_ne _ _ _ _ (by decide),
    namedLookup_num_ne _ _ _ _ (by decide), namedLookup_num_ne _ _ _ _ (by decide),
    namedLookup_num_ne _ _ _ _ (by decide), namedLookup_num_ne _ _ _ _ (by decide),
    namedLookup_num_self]
  cases a.paddingTop with
  | some n => rfl
  | none =>
      rw [namedLookup_num_ne _ _ _ _ (by decide), namedLookup_num_ne _ _ _ _ (by decide),
        namedLookup_num_bare_ne _ _ _ (by decide)]

theorem namedNum_pright (a : Attrs) :
    namedNum (namedStyleAttrs a) "paddingRight" = a.paddingRight := by
  unfold namedNum namedStyleAttrs
  rw [namedLookup_str_ne _ _ _ _ (by decide), namedLookup_num_ne _ _ _ _ (by decide),
    namedLookup_num_ne _ _ _ _ (by decide), namedLookup_num_ne _ _ _ _ (by decide),
    namedLookup_num_ne _ _ _ _ (by decide), namedLookup_str_ne _ _ _ _ (by decide),
    namedLookup_num_ne _ _ _ _ (by decide), namedLookup_num_ne _ _ _ _ (by decide),
    namedLookup_num_ne _ _ _ _ (by decide), namedLookup_num_ne _ _ _ _ (by decide),
    namedLookup_num_ne _ _ _ _ (by decide), namedLookup_num_self]
  cases a.paddingRight with
  | some n => rfl
  | none =>
      rw [namedLookup_num_ne _ _ _ _ (by decide), namedLookup_num_bare_ne _ _ _ (by decide)]

theorem namedNum_pbottom (a : Attrs) :
    namedNum (namedStyleAttrs a) "paddingBottom" = a.paddingBottom := by
  unfold namedNum namedStyleAttrs
  rw [namedLookup_str_ne _ _ _ _ (by decide), namedLookup_num_ne _ _ _ _ (by decide),
    namedLookup_num_ne _ _ _ _ (by decide), namedLookup_num_ne _ _ _ _ (by decide),
    namedLookup_num_ne _ _ _ _ (by decide), namedLookup_str_ne _ _ _ _ (by decide),
    namedLookup_num_ne _ _ _ _ (by decide), namedLookup_num_ne _ _ _ _ (by decide),
    namedLookup_num_ne _ _ _ _ (by decide), namedLookup_num_ne _ _ _ _ (by decide),
    namedLookup_num_ne _ _ _ _ (by decide), namedLookup_num_ne _ _ _ _ (by decide),
    namedLookup_num_self]
  cases a.paddingBottom with
  | some n => rfl
  | none => rw [namedLookup_num_bare_ne _ _ _ (by decide)]

theorem namedNum_pleft (a : Attrs) :
    namedNum (namedStyleAttrs a) "paddingLeft" = a.paddingLeft := by
  unfold namedNum namedStyleAttrs
  rw [namedLookup_str_ne _ _ _ _ (by decide), namedLookup_num_ne _ _ _ _ (by decide),
    namedLookup_num_ne _ _ _ _ (by decide), namedLookup_num_ne _ _ _ _ (by decide),
    namedLookup_num_ne _ _ _ _ (by decide), namedLookup_str_ne _ _ _ _ (by decide),
    namedLookup_num_ne _ _ _ _ (by decide), namedLookup_num_ne _ _ _ _ (by decide),
    namedLookup_num_ne _ _ _ _ (by decide), namedLookup_num_ne _ _ _ _ (by decide),
    namedLookup_num_ne _ _ _ _ (by decide), namedLookup_num_ne _ _ _ _ (by decide),
    namedLookup_num_ne _ _ _ _ (by decide), namedLookup_num_bare_self]
  cases a.paddingLeft <;> rfl

/-- Rebuilding Column / ColumnLayout attributes from the same-name channel
recovers the original style attributes exactly. -/
theorem attrsFromNamed_namedStyleAttrs (a : Attrs) :
    attrsFromNamed (namedStyleAttrs a) = { a with width := none, columns := 2 } := by
  simp only [attrsFromNamed, namedStr_bg, namedNum_btw, namedNum_brw, namedNum_bbw,
    namedNum_blw, namedStr_bc, namedNum_rtl, namedNum_rtr, namedNum_rbr, namedNum_rbl,
    namedNum_ptop, namedNum_pright, namedNum_pbottom, namedNum_pleft]

theorem overrideVal_num (x : Option Int) (c : Prop) [inst : Decidable c] :
    overrideVal x (if c then some (x.getD 0) else none)
      = if c then some (x.getD 0) else x := by
  cases x with
  | some v =>
      show some v = if c then some v else some v
      split_ifs <;> rfl
  | none => rfl

theorem overrideVal_bg (x : Option String) :
    overrideVal x (normColorBg x) = x := by
  cases x <;> rfl

theorem overrideVal_bc (x : Option String) (c : Prop) [inst : Decidable c] :
    overrideVal x (if c then normColorPlain x else none) = x := by
  cases x with
  | some v => rfl
  | none =>
      show (if c then normColorPlain none else none) = none
      split_ifs <;> rfl

/-- The two-channel DivBlock parse recovers the original attributes with
null sides of emitted categories filled with 0: non-null values come back
verbatim through the same-name attribute channel, and only where that
channel is silent does the style channel's defaulted 0 land. -/
theorem overlayNamed_parse_build (a : Attrs) :
    overlayNamed (parseStyleAttrs (buildBorderStyleDecls a)) (namedStyleAttrs a)
      = { fillAttrs a with width := none, columns := 2 } := by
  rw [parseStyleAttrs_build]
  simp only [overlayNamed, fillAttrs, normAttrs, namedStr_bg, namedNum_btw, namedNum_brw,
    namedNum_bbw, namedNum_blw, namedStr_bc, namedNum_rtl, namedNum_rtr, namedNum_rbr,
    namedNum_rbl, namedNum_ptop, namedNum_pright, namedNum_pbottom, namedNum_pleft,
    overrideVal_num, overrideVal_bg, overrideVal_bc]

theorem fillAttrs_width (a : Attrs) : (fillAttrs a).width = a.width := by
  simp [fillAttrs]

theorem fillAttrs_columns (a : Attrs) : (fillAttrs a).columns = a.columns := by
  simp [fillAttrs]

end EditorPlugin

namespace EditorPlugin

theorem normAttrs_default : normAttrs Attrs.default = Attrs.default := by
  simp [normAttrs, Attrs.default, normColorBg]

theorem normColorBg_idem (o : Option String) :
    normColorBg (normColorBg o) = normColorBg o := by
  cases o with
  | none => rfl
  | some s =>
      by_cases h : s = "" ∨ s = "transparent"
      · simp [normColorBg, h]
      · simp [normColorBg, h]

theorem normColorPlain_idem (o : Option String) :
    normColorPlain (normColorPlain o) = normColorPlain o := by
  cases o with
  | none => rfl
  | some s =>
      by_cases h : s = ""
      · simp [normColorPlain, h]
      · simp [normColorPlain, h]

theorem normAttrs_idem (a : Attrs) : normAttrs (normAttrs a) = normAttrs a := by
  simp only [normAttrs]
  by_cases hW : a.borderTopWidth.getD 0 ≠ 0 ∨ a.borderRightWidth.getD 0 ≠ 0
      ∨ a.borderBottomWidth.getD 0 ≠ 0 ∨ a.borderLeftWidth.getD 0 ≠ 0 <;>
  by_cases hR : a.borderTopLeftRadius.getD 0 ≠ 0 ∨ a.borderTopRightRadius.getD 0 ≠ 0
      ∨ a.borderBottomRightRadius.getD 0 ≠ 0 ∨ a.borderBottomLeftRadius.getD 0 ≠ 0 <;>
  by_cases hP : a.paddingTop.getD 0 ≠ 0 ∨ a.paddingRight.getD 0 ≠ 0
      ∨ a.paddingBottom.getD 0 ≠ 0 ∨ a.paddingLeft.getD 0 ≠ 0 <;>
    simp_all [normColorBg_idem, normColorPlain_idem, Attrs.mk.injEq]

/-- Filling the null sides of emitted categories does not change the §4.1
closure: the filled 0 is exactly what the closure writes there anyway. -/
theorem normAttrs_fillAttrs (a : Attrs) : normAttrs (fillAttrs a) = normAttrs a := by
  simp only [normAttrs, fillAttrs]
  by_cases hW : a.borderTopWidth.getD 0 ≠ 0 ∨ a.borderRightWidth.getD 0 ≠ 0
      ∨ a.borderBottomWidth.getD 0 ≠ 0 ∨ a.borderLeftWidth.getD 0 ≠ 0 <;>
  by_cases hR : a.borderTopLeftRadius.getD 0 ≠ 0 ∨ a.borderTopRightRadius.getD 0 ≠ 0
      ∨ a.borderBottomRightRadius.getD 0 ≠ 0 ∨ a.borderBottomLeftRadius.getD 0 ≠ 0 <;>
  by_cases hP : a.paddingTop.getD 0 ≠ 0 ∨ a.paddingRight.getD 0 ≠ 0
      ∨ a.paddingBottom.getD 0 ≠ 0 ∨ a.paddingLeft.getD 0 ≠ 0 <;>
    simp_all [Attrs.mk.injEq]

end EditorPlugin

namespace EditorPlugin

mutual

def normTree_idem : ∀ (c : DNode), normTree (normTree c) = normTree c
  | .elem t a cs => by
      simp only [normTree]
      rw [normAttrs_idem, normTreeList_idem cs]
  | .text s => rfl

def normTreeList_idem : ∀ (cs : List DNode),
    normTreeList (normTreeList cs) = normTreeList cs
  | [] => rfl
  | c :: cs => by
      simp only [normTreeList]
      rw [normTree_idem c, normTreeList_idem cs]

end

mutual

/-- The per-node round-trip normalization refines the §4.1 closure. -/
def normTree_roundNorm : ∀ (c : DNode), normTree (roundNormTree c) = normTree c
  | .elem t a cs => by
      simp only [roundNormTree, normTree]
      rw [normTreeList_roundNorm cs]
      congr 1
      split_ifs with h1 h2
      · exact normAttrs_fillAttrs a
      · rfl
      · exact normAttrs_idem a
  | .text s => rfl

def normTreeList_roundNorm : ∀ (cs : List DNode),
    normTreeList (roundNormList cs) = normTreeList cs
  | [] => rfl
  | c :: cs => by
      simp only [roundNormList, normTreeList]
      rw [normTree_roundNorm c, normTreeList_roundNorm cs]

end

theorem attrs_set_wc (X : Attrs) (h1 : X.width = none) (h2 : X.columns = 2) :
    { X with width := none, columns := 2 } = X := by
  cases X
  simp_all

theorem normAttrs_width (a : Attrs) : (normAttrs a).width = a.width := by
  simp [normAttrs]

theorem normAttrs_columns (a : Attrs) : (normAttrs a).columns = a.columns := by
  simp [normAttrs]

end EditorPlugin

namespace EditorPlugin

mutual

def parse_render_block : ∀ (c : DNode), wfBlock c = true →
    parseNode (renderNode c) = some (roundNormTree c)
  | .text _, hwf => absurd hwf (by simp [wfBlock])
  | .elem t a cs, hwf => by
      by_cases h1 : t = "paragraph"
      · subst h1
        have hwf' : (decide (a.width = none) && decide (a.columns = 2) && textsOnly cs) = true := hwf
        simp only [Bool.and_eq_true, decide_eq_true_eq] at hwf'
        obtain ⟨⟨hw, hc⟩, ht⟩ := hwf'
        have step : parseNode (renderNode (DNode.elem "paragraph" a cs))
            = some (DNode.elem "paragraph" (parseStyleAttrs (buildBorderStyleDecls a))
                (parseList (renderList cs))) := rfl
        rw [step, parseStyleAttrs_build, parse_render_texts cs ht]
        have hnt : roundNormTree (DNode.elem "paragraph" a cs)
            = DNode.elem "paragraph" (normAttrs a) (roundNormList cs) := rfl
        rw [hnt, attrs_set_wc (normAttrs a) (by rw [normAttrs_width, hw])
          (by rw [normAttrs_columns, hc])]
      · by_cases h2 : t = "divBlock"
        · subst h2
          have hwf' : (decide (a.width = none) && decide (a.columns = 2) && wfBlocks cs) = true := hwf
          simp only [Bool.and_eq_true, decide_eq_true_eq] at hwf'
          obtain ⟨⟨hw, hc⟩, hbs⟩ := hwf'
          have step : parseNode (renderNode (DNode.elem "divBlock" a cs))
              = some (DNode.elem "divBlock"
                  (overlayNamed (parseStyleAttrs (buildBorderStyleDecls a)) (namedStyleAttrs a))
                  (parseList (renderList cs))) := rfl
          rw [step, overlayNamed_parse_build, parse_render_blocks cs hbs]
          have hnt : roundNormTree (DNode.elem "divBlock" a cs)
              = DNode.elem "divBlock" (fillAttrs a) (roundNormList cs) := rfl
          rw [hnt, attrs_set_wc (fillAttrs a) (by rw [fillAttrs_width, hw])
            (by rw [fillAttrs_columns, hc])]
        · by_cases h3 : t = "columnLayout"
          · subst h3
            have hwf' : (decide (a.width = none) && !cs.isEmpty && wfColumns cs) = true := hwf
            simp only [Bool.and_eq_true, decide_eq_true_eq] at hwf'
            obtain ⟨⟨hw, _⟩, hcs⟩ := hwf'
            have step : parseNode (renderNode (DNode.elem "columnLayout" a cs))
                = some (DNode.elem "columnLayout"
                    { attrsFromNamed (namedStyleAttrs a) with columns := (some a.columns).getD 2 }
                    (parseList (renderList cs))) := rfl
            rw [step, parse_render_columns cs hcs]
            have hattr : ({ attrsFromNamed (namedStyleAttrs a) with
                columns := (some a.columns).getD 2 } : Attrs) = a := by
              rw [attrsFromNamed_namedStyleAttrs]
              cases a
              simp_all
            rw [hattr]
            have hnt : roundNormTree (DNode.elem "columnLayout" a cs)
                = DNode.elem "columnLayout" a (roundNormList cs) := rfl
            rw [hnt]
          · exfalso
            have hfalse : wfBlock (DNode.elem t a cs) = false := by
              simp [wfBlock, h1, h2, h3]
            rw [hfalse] at hwf
            exact absurd hwf (by simp)

def parse_render_column : ∀ (c : DNode), wfColumn c = true →
    parseNode (renderNode c) = some (roundNormTree c)
  | .text _, hwf => absurd hwf (by simp [wfColumn])
  | .elem t a cs, hwf => by
      by_cases h1 : t = "column"
      · subst h1
        have hwf' : (decide (a.columns = 2) && decide (a.width ≠ some "") && wfBlocks cs) = true := hwf
        simp only [Bool.and_eq_true, decide_eq_true_eq] at hwf'
        obtain ⟨⟨hc, hne⟩, hbs⟩ := hwf'
        have step : parseNode (renderNode (DNode.elem "column" a cs))
            = some (DNode.elem "column"
                { attrsFromNamed (namedStyleAttrs a) with
                  width := (match a.width with
                    | some w => if w = "" then none else some w
                    | none => none) }
                (parseList (renderList cs))) := rfl
        rw [step, parse_render_blocks cs hbs]
        have hdw : (match a.width with
            | some w => if w = "" then none else some w
            | none => none) = a.width := by
          cases hx : a.width with
          | none => rfl
          | some w =>
              have hwne : ¬ w = "" := by
                intro hcon
                rw [hx, hcon] at hne
                exact hne rfl
              simp [hwne]
        have hattr : ({ attrsFromNamed (namedStyleAttrs a) with
            width := (match a.width with
              | some w => if w = "" then none else some w
              | none => none) } : Attrs) = a := by
          rw [hdw, attrsFromNamed_namedStyleAttrs]
          cases a
          simp_all
        rw [hattr]
        have hnt : roundNormTree (DNode.elem "column" a cs)
            = DNode.elem "column" a (roundNormList cs) := rfl
        rw [hnt]
      · exfalso
        have hfalse : wfColumn (DNode.elem t a cs) = false := by
          simp [wfColumn, h1]
        rw [hfalse] at hwf
        exact absurd hwf (by simp)

def parse_render_blocks : ∀ (cs : List DNode), wfBlocks cs = true →
    parseList (renderList cs) = roundNormList cs
  | [], _ => rfl
  | c :: cs, hwf => by
      have hwf' : (wfBlock c && wfBlocks cs) = true := hwf
      simp only [Bool.and_eq_true] at hwf'
      have step : parseList (renderList (c :: cs))
          = match parseNode (renderNode c) with
            | some n => n :: parseList (renderList cs)
            | none => parseList (renderList cs) := rfl
      rw [step, parse_render_block c hwf'.1, parse_render_blocks cs hwf'.2]
      rfl

def parse_render_columns : ∀ (cs : List DNode), wfColumns cs = true →
    parseList (renderList cs) = roundNormList cs
  | [], _ => rfl
  | c :: cs, hwf => by
      have hwf' : (wfColumn c && wfColumns cs) = true := hwf
      simp only [Bool.and_eq_true] at hwf'
      have step : parseList (renderList (c :: cs))
          = match parseNode (renderNode c) with
            | some n => n :: parseList (renderList cs)
            | none => parseList (renderList cs) := rfl
      rw [step, parse_render_column c hwf'.1, parse_render_columns cs hwf'.2]
      rfl

def parse_render_texts : ∀ (cs : List DNode), textsOnly cs = true →
    parseList (renderList cs) = roundNormList cs
  | [], _ => rfl
  | .text s :: cs, ht => by
      have step : parseList (renderList (DNode.text s :: cs))
          = DNode.text s :: parseList (renderList cs) := rfl
      rw [step, parse_render_texts cs ht]
      rfl
  | .elem t a ds :: cs, ht => by exact absurd ht (by simp [textsOnly])

end

end EditorPlugin

namespace EditorPlugin

/-- A schema-respecting document whose paragraph carries the explicit
background sentinel. -/
def transparentParaDoc : DNode :=
  .elem "doc" Attrs.default
    [.elem "paragraph" { Attrs.default with backgroundColor := some "transparent" }
      [.text "hi"]]

/-- C3 counterexample: a paragraph whose backgroundColor is the explicit
sentinel "transparent" — a non-null attribute value — round-trips to null.
Paragraph style attributes travel only through the inline style (the
BlockStyle global attributes all define `renderHTML`, so TipTap's same-name
default attribute channel does not exist for them), `buildBorderStyle`
skips the sentinel when serializing (BlockStyle.ts line 89), and the parse
side reads `element.style.backgroundColor || null` from a style that never
mentions it.  The same style-only channel also nulls a paragraph's
border-color when all four border widths are zero. -/
theorem roundtrip_transparent_bg_cx :
    wfDoc transparentParaDoc = true
    ∧ (getNode [0] transparentParaDoc).map (fun m => (nodeAttrs m).backgroundColor)
        = some (some "transparent")
    ∧ (getNode [0] (fromHTML (toHTML transparentParaDoc))).map
        (fun m => (nodeAttrs m).backgroundColor) = some none
    ∧ specEquivNode (fromHTML (toHTML transparentParaDoc)) transparentParaDoc = false :=
  ⟨by decide, by decide, by decide, by decide⟩

/-- C3 (amended): for every well-formed document of this spec's node types,
fromHTML(toHTML(D)) equals D up to the pointwise normalization
`roundNormTree`: Column, ColumnLayout and DivBlock attributes survive
verbatim — their fourteen style attributes are declared `{ default: null }`
with no `renderHTML`, so TipTap renders them as same-name HTML attributes
and the injected `fromString(getAttribute(name))` fallback reads them back —
except that a null side of an emitted DivBlock border-width / radius /
padding category is filled with the 0 its style shorthand wrote.  Paragraph
style attributes, carried only by the inline style, are closed under the
§4.1 zero-omission rule, which also nulls the "transparent" background
sentinel and a border-color whose border widths are all zero.  In
particular the round-trip is structurally equivalent to D modulo the §4.1
closure. -/
theorem roundtrip_structural_equiv (d : DNode) (hwf : wfDoc d = true) :
    fromHTML (toHTML d) = roundNormTree d ∧ structEquiv (fromHTML (toHTML d)) d := by
  cases d with
  | text s => exact absurd hwf (by simp [wfDoc])
  | elem t a cs =>
      by_cases h : t = "doc"
      · subst h
        have hwf' : (decide (a = Attrs.default) && wfBlocks cs) = true := hwf
        simp only [Bool.and_eq_true, decide_eq_true_eq] at hwf'
        obtain ⟨ha, hbs⟩ := hwf'
        subst ha
        have hmain : fromHTML (toHTML (DNode.elem "doc" Attrs.default cs))
            = roundNormTree (DNode.elem "doc" Attrs.default cs) := by
          have hh1 : fromHTML (toHTML (DNode.elem "doc" Attrs.default cs))
              = DNode.elem "doc" Attrs.default (parseList (renderList cs)) := rfl
          have hh2 : roundNormTree (DNode.elem "doc" Attrs.default cs)
              = DNode.elem "doc" Attrs.default (roundNormList cs) := rfl
          rw [hh1, hh2, parse_render_blocks cs hbs]
        refine ⟨hmain, ?_⟩
        show normTree (fromHTML (toHTML (DNode.elem "doc" Attrs.default cs)))
          = normTree (DNode.elem "doc" Attrs.default cs)
        rw [hmain]
        exact normTree_roundNorm _
      · exact absurd hwf (by simp [wfDoc, h])

/-- A document exercising styled paragraphs, a divBlock mixing null and
non-null sides, and a styled two-column layout whose first column carries
both an explicit width and style attributes. -/
def richParagraphAttrs : Attrs :=
  { backgroundColor := some "#123456", borderLeftWidth := some 2, paddingTop := some 4 }

def richDivAttrs : Attrs :=
  { borderTopWidth := some 1, borderColor := some "red" }

def richColumnAttrs : Attrs :=
  { width := some "30%", backgroundColor := some "#ff0000", borderTopWidth := some 1 }

def richLayoutAttrs : Attrs :=
  { columns := 2, paddingLeft := some 8 }

def richStyledDoc : DNode :=
  .elem "doc" Attrs.default
    [.elem "paragraph" richParagraphAttrs [.text "x"],
     .elem "divBlock" richDivAttrs [.elem "paragraph" Attrs.default [.text "y"]],
     .elem "columnLayout" richLayoutAttrs
       [.elem "column" richColumnAttrs [.elem "paragraph" Attrs.default []],
        .elem "column" Attrs.default [.elem "paragraph" Attrs.default []]]]

/-- Witness for `roundtrip_structural_equiv` at `richStyledDoc`; the final
conjunct checks concretely that the styled column's backgroundColor comes
back verbatim through the same-name attribute channel. -/
theorem roundtrip_structural_equiv_witness :
    wfDoc richStyledDoc = true
    ∧ (fromHTML (toHTML richStyledDoc) = roundNormTree richStyledDoc
       ∧ structEquiv (fromHTML (toHTML richStyledDoc)) richStyledDoc)
    ∧ (getNode [2, 0] (fromHTML (toHTML richStyledDoc))).map
        (fun m => (nodeAttrs m).backgroundColor) = some (some "#ff0000") :=
  ⟨by decide, roundtrip_structural_equiv richStyledDoc (by decide), by decide⟩

end EditorPlugin
